import Mathlib

/-!
# Network Service Header: push, pop and GSO segmentation

A shallow embedding of `datapath/nsh.c` (`ovs_nsh_push`, `ovs_nsh_pop`,
`nsh_gso_segment`) together with the socket-buffer helpers, the header
length accessor and the tunnel protocol table those functions call.

Conventions of the embedding.

* A byte is a `Nat`; a region of memory is a `List Nat`.
* A C function that mutates `struct sk_buff *skb` and returns a code is a
  function returning the code paired with the buffer after the call.
* `u16` fields are `Nat`s; every store into one truncates modulo `2 ^ 16`.
* An `int` return value is an `Int`; errors are negative errno values.
* What the memory allocator does is not determined by the buffer, so
  `skb_cow_head`, whose failure `ovs_nsh_push` reports as `-ENOMEM`, takes the
  outcome of its allocation as an explicit argument `gfp_ok`.
* The helpers of `linux/skbuff.h`, `net/nsh.h` and `net/tun_proto.h` are not
  among the sources. They are modelled after the kernel headers, restricted to
  the fields of `sk_buff` kept here, and each agrees with the PacketBuffer
  operation of the spec that it implements (growFront, shrinkFront,
  ensureAvailable). The doc comment of a helper says so where it follows the
  spec on a point the kernel leaves to the environment.
-/

set_option autoImplicit false

namespace Nsh

/-! ## Constants -/

/-- Errno `ENOMEM`. -/
def ENOMEM : Int := 12

/-- Errno `EINVAL`. -/
def EINVAL : Int := 22

/-- Errno `EAFNOSUPPORT`. -/
def EAFNOSUPPORT : Int := 97

/-- Ethertype of IPv4. -/
def ETH_P_IP : Nat := 0x0800

/-- Ethertype of IPv6. -/
def ETH_P_IPV6 : Nat := 0x86DD

/-- Ethertype of transparent Ethernet bridging. -/
def ETH_P_TEB : Nat := 0x6558

/-- Ethertype of the Network Service Header. -/
def ETH_P_NSH : Nat := 0x894F

/-- Ethertype of MPLS unicast. -/
def ETH_P_MPLS_UC : Nat := 0x8847

/-- Tunnel next-protocol code of IPv4. -/
def TUN_P_IPV4 : Nat := 0x01

/-- Tunnel next-protocol code of IPv6. -/
def TUN_P_IPV6 : Nat := 0x02

/-- Tunnel next-protocol code of Ethernet, the generic link-layer code. -/
def TUN_P_ETHERNET : Nat := 0x03

/-- Tunnel next-protocol code of NSH. -/
def TUN_P_NSH : Nat := 0x04

/-- Tunnel next-protocol code of MPLS unicast. -/
def TUN_P_MPLS_UC : Nat := 0x05

/-- Length in bytes of the NSH base header. -/
def NSH_BASE_HDR_LEN : Nat := 8

/-- Mask of the length field inside `ver_flags_ttl_len`. -/
def NSH_LEN_MASK : Nat := 0x003f

/-- Shift of the length field inside `ver_flags_ttl_len`. -/
def NSH_LEN_SHIFT : Nat := 0

/-- Feature bit of scatter-gather I/O. -/
def NETIF_F_SG : Nat := 1

/-- Headroom granularity used when a buffer head is reallocated. -/
def NET_SKB_PAD : Nat := 64

/-- Checksum state: no checksum information. -/
def CHECKSUM_NONE : Nat := 0

/-- Checksum state: the device summed the whole packet into `csum`. -/
def CHECKSUM_COMPLETE : Nat := 2

/-- Checksum state: checksum still to be filled in from `csum_start`. -/
def CHECKSUM_PARTIAL : Nat := 3

/-- Value of `mac_header` while the link-layer header is not set. -/
def MAC_HEADER_UNSET : Nat := 0xFFFF

/-! ## Machine integers -/

/-- Truncation of an integer to an unsigned 16-bit field. -/
def u16 (n : Int) : Nat := (n % 65536).toNat

/-- Truncation of a natural number to an unsigned 32-bit value. -/
def u32 (n : Nat) : Nat := n % 4294967296

/-- Host to network byte order for 16-bit values on a little-endian host. -/
def htons (x : Nat) : Nat := (x % 256) * 256 + (x / 256) % 256

/-- Round `x` up to a multiple of `a`. -/
def ALIGN (x a : Nat) : Nat := (x + a - 1) / a * a

/-! ## The tunnel protocol table and the header length -/

/-- Modelled from the spec: `tun_p_to_eth_p` of `net/tun_proto.h`, a header
that nsh.c includes and that is not among the sources. The spec calls it the
decode direction of the ProtocolTranslationTable, a fixed partial mapping
with `0` for an unknown code; the five entries are those of the tunnel
protocol registry. -/
def tun_p_to_eth_p (proto : Nat) : Nat :=
  if proto = TUN_P_IPV4 then htons ETH_P_IP
  else if proto = TUN_P_IPV6 then htons ETH_P_IPV6
  else if proto = TUN_P_ETHERNET then htons ETH_P_TEB
  else if proto = TUN_P_NSH then htons ETH_P_NSH
  else if proto = TUN_P_MPLS_UC then htons ETH_P_MPLS_UC
  else 0

/-- Modelled from the spec: `tun_p_from_eth_p` of `net/tun_proto.h`, the
encode direction of the ProtocolTranslationTable, with `0` for an identifier
that has no code. -/
def tun_p_from_eth_p (proto : Nat) : Nat :=
  if proto = htons ETH_P_IP then TUN_P_IPV4
  else if proto = htons ETH_P_IPV6 then TUN_P_IPV6
  else if proto = htons ETH_P_TEB then TUN_P_ETHERNET
  else if proto = htons ETH_P_NSH then TUN_P_NSH
  else if proto = htons ETH_P_MPLS_UC then TUN_P_MPLS_UC
  else 0

/-- The big-endian 16-bit field `ver_flags_ttl_len` at the start of a header,
converted to host order (`ntohs(nh->ver_flags_ttl_len)`). -/
def ver_flags_ttl_len (nh : List Nat) : Nat := nh.getD 0 0 * 256 + nh.getD 1 0

/-- The next-protocol byte `nh->np`, at offset 3 of a header. -/
def nsh_np (nh : List Nat) : Nat := nh.getD 3 0

/-- Modelled from the spec: `nsh_hdr_len` of `net/nsh.h`, not among the
sources. The spec says the total length is computed from the length field of
the base header; the field is the low six bits of `ver_flags_ttl_len` and
counts 4-byte words. -/
def nsh_hdr_len (nh : List Nat) : Nat :=
  (((ver_flags_ttl_len nh) &&& NSH_LEN_MASK) >>> NSH_LEN_SHIFT) <<< 2

/-! ## Socket buffers -/

/-- The fields of `struct sk_buff` that the NSH code reads or writes, directly
or through the helpers it calls. `head` is the linear storage from `skb->head`
up to `skb->tail`, `data` the offset of `skb->data` in it, `frags` the paged
bytes that follow the linear part. Header markers are offsets from `head`. -/
structure sk_buff where
  head : List Nat
  data : Nat
  frags : List Nat
  mac_header : Nat
  network_header : Nat
  transport_header : Nat
  mac_len : Nat
  protocol : Nat
  ip_summed : Nat
  csum : Nat
  csum_start : Nat
  cloned : Bool
  encapsulation : Bool
deriving DecidableEq, Repr

/-- Bytes between `head` and `data`. -/
def skb_headroom (skb : sk_buff) : Nat := skb.data

/-- Number of bytes of the packet that lie in the linear part. -/
def skb_headlen (skb : sk_buff) : Nat := skb.head.length - skb.data

/-- Total number of bytes of the packet (`skb->len`). -/
def skb_len (skb : sk_buff) : Nat := skb_headlen skb + skb.frags.length

/-- The linear bytes starting at `skb->data`. -/
def skb_data (skb : sk_buff) : List Nat := skb.head.drop skb.data

/-- The bytes of the packet, front first: linear part, then paged part. -/
def skb_bytes (skb : sk_buff) : List Nat := skb_data skb ++ skb.frags

/-- The memory at `skb_network_header(skb)`, read as an NSH header. -/
def nsh_hdr (skb : sk_buff) : List Nat := skb.head.drop skb.network_header

/-- Whether the link-layer marker holds an offset. -/
def skb_mac_header_was_set (skb : sk_buff) : Bool :=
  decide (skb.mac_header ≠ MAC_HEADER_UNSET)

/-- Shift every header marker by `off` after the head was reallocated. -/
def skb_headers_offset_update (skb : sk_buff) (off : Nat) : sk_buff :=
  { skb with
    csum_start :=
      if skb.ip_summed = CHECKSUM_PARTIAL then u16 (skb.csum_start + off)
      else skb.csum_start
    transport_header := u16 (skb.transport_header + off)
    network_header := u16 (skb.network_header + off)
    mac_header :=
      if skb_mac_header_was_set skb then u16 (skb.mac_header + off)
      else skb.mac_header }

/-- Reallocate the head with `nhead` more bytes of headroom. The new headroom
is uninitialised memory, represented by zero bytes. Fails with `-ENOMEM`,
leaving the buffer as it was, when the allocation fails. -/
def pskb_expand_head (gfp_ok : Bool) (skb : sk_buff) (nhead : Nat) : Int × sk_buff :=
  if gfp_ok then
    (0, skb_headers_offset_update
          { skb with
            head := List.replicate nhead 0 ++ skb.head
            data := skb.data + nhead
            cloned := false } nhead)
  else (-ENOMEM, skb)

/-- Make sure the buffer has `headroom` writable bytes in front of `data`: the
allocation half of the spec's growFront. Reallocates when the headroom is
short or the head is shared, and fails with `-ENOMEM` when that allocation
fails. -/
def skb_cow_head (gfp_ok : Bool) (skb : sk_buff) (headroom : Nat) : Int × sk_buff :=
  let delta := if headroom > skb_headroom skb then headroom - skb_headroom skb else 0
  if delta ≠ 0 ∨ skb.cloned = true then
    pskb_expand_head gfp_ok skb (ALIGN delta NET_SKB_PAD)
  else (0, skb)

/-- Move the first `delta` paged bytes to the end of the linear part. -/
def __pskb_pull_tail (skb : sk_buff) (delta : Nat) : sk_buff :=
  { skb with
    head := skb.head ++ skb.frags.take delta
    frags := skb.frags.drop delta
    cloned := false }

/-- Modelled from the spec: `pskb_may_pull`, the spec's ensureAvailable. It
guarantees `len` bytes readable in the linear part, pulling paged bytes when
needed, and fails exactly when the packet has fewer than `len` bytes. The
reallocation that a pull may need is taken to succeed. -/
def pskb_may_pull (skb : sk_buff) (len : Nat) : Bool × sk_buff :=
  if len ≤ skb_headlen skb then (true, skb)
  else if len > skb_len skb then (false, skb)
  else (true, __pskb_pull_tail skb (len - skb_headlen skb))

/-- Move the front back by `len` bytes. The caller guarantees `len` bytes of
headroom, as `ovs_nsh_push` does through `skb_cow_head`. -/
def skb_push (skb : sk_buff) (len : Nat) : sk_buff :=
  { skb with data := skb.data - len }

/-- Unchecked variant of `skb_push`: the caller guarantees the headroom. -/
def __skb_push (skb : sk_buff) (len : Nat) : sk_buff :=
  { skb with data := skb.data - len }

/-- Move the front forward by `len` bytes of the linear part. -/
def __skb_pull (skb : sk_buff) (len : Nat) : sk_buff :=
  { skb with data := skb.data + len }

/-- Point the link-layer marker at the front. -/
def skb_reset_mac_header (skb : sk_buff) : sk_buff :=
  { skb with mac_header := u16 skb.data }

/-- Point the network-layer marker at the front. -/
def skb_reset_network_header (skb : sk_buff) : sk_buff :=
  { skb with network_header := u16 skb.data }

/-- Point the transport-layer marker at the front. -/
def skb_reset_transport_header (skb : sk_buff) : sk_buff :=
  { skb with transport_header := u16 skb.data }

/-- Recompute `mac_len` as the distance between the two markers. -/
def skb_reset_mac_len (skb : sk_buff) : sk_buff :=
  { skb with mac_len := u16 ((skb.network_header : Int) - skb.mac_header) }

/-- Point the link-layer marker `offset` bytes from the front. -/
def skb_set_mac_header (skb : sk_buff) (offset : Int) : sk_buff :=
  let skb1 := skb_reset_mac_header skb
  { skb1 with mac_header := u16 (skb1.mac_header + offset) }

/-- The `n` bytes that a copy reads at `src`; bytes beyond the end of the
region `src` stands for are read as zero. -/
def memcpy_src (src : List Nat) (n : Nat) : List Nat := (src ++ List.replicate n 0).take n

/-- Copy `n` bytes of `src` over `mem` starting at offset `dst`. -/
def memcpy (mem : List Nat) (dst : Nat) (src : List Nat) (n : Nat) : List Nat :=
  mem.take dst ++ memcpy_src src n ++ mem.drop (dst + n)

/-! ## Checksums -/

/-- Sum of the little-endian 16-bit words of a region, a trailing odd byte
counting as a low byte. -/
def csum_words : List Nat → Nat
  | [] => 0
  | [b] => b
  | b0 :: b1 :: rest => b0 + 256 * b1 + csum_words rest

/-- The 16-bit ones-complement sum of a region, end-around carries folded. -/
def do_csum (buff : List Nat) : Nat :=
  let s := csum_words buff
  if s = 0 then 0 else (s - 1) % 65535 + 1

/-- Add two 32-bit partial checksums with end-around carry. -/
def csum_add (csum addend : Nat) : Nat :=
  let res := u32 (csum + addend)
  u32 (res + (if res < addend then 1 else 0))

/-- Subtract a 32-bit partial checksum: add its complement. -/
def csum_sub (csum addend : Nat) : Nat :=
  csum_add csum (4294967295 - u32 addend)

/-- Checksum of the first `len` bytes at `buff`, accumulated onto `wsum`. -/
def csum_partial (buff : List Nat) (len : Nat) (wsum : Nat) : Nat :=
  let result := u32 (do_csum (buff.take len) + wsum)
  if wsum > result then u32 (result + 1) else result

/-- Update `csum` of a checksum-complete buffer for `len` bytes at `start`
that were just pushed in front. -/
def skb_postpush_rcsum (skb : sk_buff) (start : List Nat) (len : Nat) : sk_buff :=
  if skb.ip_summed = CHECKSUM_COMPLETE then
    { skb with csum := csum_partial start len skb.csum }
  else skb

/-- Update the checksum state for `len` bytes at `start` that were just
pulled off the front. -/
def skb_postpull_rcsum (skb : sk_buff) (start : List Nat) (len : Nat) : sk_buff :=
  if skb.ip_summed = CHECKSUM_COMPLETE then
    { skb with csum := csum_sub skb.csum ( csum_partial start len 0) }
  else if skb.ip_summed = CHECKSUM_PARTIAL ∧ skb.csum_start < skb_headroom skb then
    { skb with ip_summed := CHECKSUM_NONE }
  else skb

/-- Pull `len` bytes off the front and update the checksum state: the spec's
shrinkFront with checksum adjustment. -/
def skb_pull_rcsum (skb : sk_buff) (len : Nat) : sk_buff :=
  let data := skb_data skb
  skb_postpull_rcsum (__skb_pull skb len) data len

/-! ## datapath/nsh.c -/

/-- Embedding of `ovs_nsh_push`. The store `nh->np = next_proto` goes to offset
3 of the new front whatever `length` is; when that offset lies beyond the
linear storage kept in `head` the store is not represented. -/
def ovs_nsh_push (gfp_ok : Bool) (skb : sk_buff) (pushed_nh : List Nat) : Int × sk_buff :=
  let length := nsh_hdr_len pushed_nh
  let next_proto := if skb.mac_len ≠ 0 then TUN_P_ETHERNET else tun_p_from_eth_p skb.protocol
  if skb.mac_len = 0 ∧ next_proto = 0 then (-EAFNOSUPPORT, skb)
  else
    let cow := skb_cow_head gfp_ok skb length
    if cow.1 < 0 then (-ENOMEM, cow.2)
    else
      let skb1 := skb_push cow.2 length
      let skb2 := { skb1 with head := memcpy skb1.head skb1.data pushed_nh length }
      let skb3 := { skb2 with head := skb2.head.set (skb2.data + 3) next_proto }
      let skb4 := skb_postpush_rcsum skb3 (skb_data skb3) length
      let skb5 := { skb4 with protocol := htons ETH_P_NSH }
      (0, skb_reset_mac_len (skb_reset_network_header (skb_reset_mac_header skb5)))

/-- The value that `ovs_nsh_push` computes into its local `next_proto` when it
does not fail on it (lines 22 to 28 of nsh.c). -/
def push_next_proto (skb : sk_buff) : Nat :=
  if skb.mac_len ≠ 0 then TUN_P_ETHERNET else tun_p_from_eth_p skb.protocol

/-- Embedding of `ovs_nsh_pop`. -/
def ovs_nsh_pop (skb : sk_buff) : Int × sk_buff :=
  let pull1 := pskb_may_pull skb NSH_BASE_HDR_LEN
  if pull1.1 = false then (-ENOMEM, pull1.2)
  else
    let nh := skb_data pull1.2
    let length := nsh_hdr_len nh
    let inner_proto := tun_p_to_eth_p (nsh_np nh)
    let pull2 := pskb_may_pull pull1.2 length
    if pull2.1 = false then (-ENOMEM, pull2.2)
    else if inner_proto = 0 then (-EAFNOSUPPORT, pull2.2)
    else
      let skb1 := skb_pull_rcsum pull2.2 length
      let skb2 := skb_reset_mac_len (skb_reset_network_header (skb_reset_mac_header skb1))
      (0, { skb2 with protocol := inner_proto })

/-- Result of a segmentation callback: `ERR_PTR(e)` is `Except.error e`, the
null pointer is the empty list, a chain of buffers linked through `next` is the
list of its members. -/
abbrev segs_ptr := Except Int (List sk_buff)

deriving instance DecidableEq for Except

/-- The test `IS_ERR_OR_NULL`. -/
def IS_ERR_OR_NULL (segs : segs_ptr) : Bool :=
  match segs with
  | Except.error _ => true
  | Except.ok [] => true
  | Except.ok (_ :: _) => false

/-- Undo the pull of an encapsulation header after a failed segmentation:
`skb_gso_error_unwind` of `linux/skbuff.h`, as the kernel defines it. It sets
the protocol, marks the buffer as encapsulated, pushes the header back, points
the transport marker at the front and rewrites the three link-layer fields. -/
def skb_gso_error_unwind (skb : sk_buff) (protocol : Nat) (pulled_hlen : Nat)
    (mac_offset : Nat) (mac_len : Nat) : sk_buff :=
  let skb1 := { skb with protocol := protocol, encapsulation := true }
  let skb2 := skb_reset_transport_header (skb_push skb1 pulled_hlen)
  let skb3 := { skb2 with mac_header := mac_offset }
  let skb4 := { skb3 with network_header := u16 (skb3.mac_header + mac_len) }
  { skb4 with mac_len := mac_len }

/-- Bookkeeping that the loop of `nsh_gso_segment` applies to one fragment. -/
def nsh_gso_fixup (nsh_len : Nat) (nhoff : Int) (mac_len : Nat) (skb : sk_buff) : sk_buff :=
  let skb1 := { skb with protocol := htons ETH_P_NSH }
  let skb2 := __skb_push skb1 nsh_len
  let skb3 := skb_set_mac_header skb2 (-nhoff)
  let skb4 := { skb3 with network_header := u16 (skb3.mac_header + mac_len) }
  { skb4 with mac_len := mac_len }

/-- Embedding of `nsh_gso_segment`. The delegate `skb_mac_gso_segment` is a
parameter: it receives the buffer and the feature mask and returns its result
together with the buffer as it leaves it. The result pairs the returned
pointer with the input buffer as the call leaves it. -/
def nsh_gso_segment (skb_mac_gso_segment : sk_buff → Nat → segs_ptr × sk_buff)
    (skb : sk_buff) (features : Nat) : segs_ptr × sk_buff :=
  let segs0 : segs_ptr := Except.error (-EINVAL)
  let skb0 := skb_reset_network_header skb
  let nhoff : Int := (skb0.network_header : Int) - skb0.mac_header
  let mac_len := skb0.mac_len
  let pull1 := pskb_may_pull skb0 NSH_BASE_HDR_LEN
  if pull1.1 = false then (segs0, pull1.2)
  else
    let nsh_len := nsh_hdr_len (nsh_hdr pull1.2)
    let pull2 := pskb_may_pull pull1.2 nsh_len
    if pull2.1 = false then (segs0, pull2.2)
    else
      let proto := tun_p_to_eth_p (nsh_np (nsh_hdr pull2.2))
      if proto = 0 then (segs0, pull2.2)
      else
        let skb1 := __skb_pull pull2.2 nsh_len
        let skb2 := skb_reset_mac_len (skb_reset_mac_header skb1)
        let skb3 := { skb2 with protocol := proto }
        let features1 := features &&& NETIF_F_SG
        let out := skb_mac_gso_segment skb3 features1
        if IS_ERR_OR_NULL out.1 then
          (out.1, skb_gso_error_unwind out.2 (htons ETH_P_NSH) nsh_len
                    (u16 ((out.2.network_header : Int) - nhoff)) mac_len)
        else
          (out.1.map (List.map (nsh_gso_fixup nsh_len nhoff mac_len)), out.2)

/-- The buffer that `nsh_gso_segment` passes to the delegate, that is the state
after line 103 of nsh.c, for a buffer on which the three header checks pass. -/
def nsh_gso_inner (skb : sk_buff) : sk_buff :=
  let skb0 := skb_reset_network_header skb
  let pull1 := pskb_may_pull skb0 NSH_BASE_HDR_LEN
  let nsh_len := nsh_hdr_len (nsh_hdr pull1.2)
  let pull2 := pskb_may_pull pull1.2 nsh_len
  let proto := tun_p_to_eth_p (nsh_np (nsh_hdr pull2.2))
  { skb_reset_mac_len (skb_reset_mac_header (__skb_pull pull2.2 nsh_len)) with protocol := proto }

/-! ## A reference splitter for the delegate -/

/-- Cut a region into pieces of `M` bytes, the last one possibly shorter;
`fuel` bounds the number of pieces. -/
def chunks_fuel (M : Nat) : Nat → List Nat → List (List Nat)
  | 0, _ => []
  | fuel + 1, l => if l = [] then [] else l.take M :: chunks_fuel M fuel (l.drop M)

/-- Cut a region into consecutive pieces of `M` bytes. -/
def chunks (M : Nat) (l : List Nat) : List (List Nat) := chunks_fuel M l.length l

/-- One fragment of the reference splitter: a linear buffer that keeps a copy
of everything in front of `data` and of the other fields of `skb`, with the
piece `c` as its packet. -/
def link_split_frag (skb : sk_buff) (c : List Nat) : sk_buff :=
  { skb with head := skb.head.take skb.data ++ c, frags := [], cloned := false }

/-- A reference link-layer splitter with maximum segment size `M`: one fragment
per piece of the packet, each a linear buffer that keeps a copy of everything
in front of `data` (the headers already pulled) and of the other fields. -/
def link_split (M : Nat) : sk_buff → Nat → segs_ptr × sk_buff :=
  fun skb _ => (Except.ok ((chunks M (skb_bytes skb)).map (link_split_frag skb)), skb)

/-- What a correct link-layer splitter with maximum segment size `M` returns
for the buffer `inner`, of which `hlen` bytes of encapsulation header were
pulled: the packets of the fragments are the consecutive pieces of `M` bytes
of the packet of `inner`, and every fragment has in front of its `data` a copy
of the `hlen` bytes in front of the `data` of `inner`. -/
def is_link_split (M hlen : Nat) (inner : sk_buff) (frags : List sk_buff) : Prop :=
  frags.map skb_bytes = chunks M (skb_bytes inner) ∧
  ∀ fr ∈ frags, hlen ≤ fr.data ∧ fr.data ≤ fr.head.length ∧
    (fr.head.drop (fr.data - hlen)).take hlen = (inner.head.drop (inner.data - hlen)).take hlen

instance (M hlen : Nat) (inner : sk_buff) (frags : List sk_buff) :
    Decidable (is_link_split M hlen inner frags) := by
  unfold is_link_split
  infer_instance

/-! ## Sample buffers, headers and delegates -/

/-- A buffer with no storage and every field zero. -/
def skb_zero : sk_buff :=
  { head := [], data := 0, frags := [], mac_header := 0, network_header := 0,
    transport_header := 0, mac_len := 0, protocol := 0, ip_summed := CHECKSUM_NONE,
    csum := 0, csum_start := 0, cloned := false, encapsulation := false }

/-- A linear buffer: `room` bytes of headroom, then `payload`, the front and
the link-layer marker at the start of the payload, `mac_len` bytes of link
framing before the network-layer marker. -/
def skb_frame (room : Nat) (payload : List Nat) (protocol mac_len : Nat) : sk_buff :=
  { skb_zero with
    head := List.replicate room 0 ++ payload
    data := room
    mac_header := room
    network_header := room + mac_len
    mac_len := mac_len
    protocol := protocol }

/-- An NSH base header with no metadata: length field 2, that is 8 bytes. -/
def nsh_base_hdr : List Nat := [0x0f, 0x02, 0x02, 0x00, 0x00, 0x00, 0x01, 0xff]

/-- An NSH header with one word of metadata: length field 3, that is 12 bytes. -/
def nsh_md_hdr : List Nat := [0x0f, 0x03, 0x02, 0x00, 0x00, 0x00, 0x01, 0xff, 0xca, 0xfe, 0x00, 0x00]

/-- A template whose length field is zero. -/
def nsh_len0_hdr : List Nat := [0x0f, 0x00, 0x02, 0x00, 0x00, 0x00, 0x01, 0xff]

/-- A delegate that fails with the error `err` and leaves the buffer alone. -/
def gso_fail (err : Int) : sk_buff → Nat → segs_ptr × sk_buff :=
  fun skb _ => (Except.error err, skb)

/-- A delegate that returns the null pointer and leaves the buffer alone. -/
def gso_null : sk_buff → Nat → segs_ptr × sk_buff :=
  fun skb _ => (Except.ok [], skb)

/-- A delegate that clears the checksum field and then fails. -/
def gso_fail_dirty : sk_buff → Nat → segs_ptr × sk_buff :=
  fun skb _ => (Except.error (-ENOMEM), { skb with csum := 0 })

/-- An encapsulated packet as `ovs_nsh_push` makes it: a base header in front
of a 20-byte IPv4 packet. -/
def nsh_ipv4_skb : sk_buff :=
  (ovs_nsh_push true
    (skb_frame 32 [0x45, 0, 0, 20, 0, 0, 0, 0, 64, 6, 0, 0, 10, 0, 0, 1, 10, 0, 0, 2]
      (htons ETH_P_IP) 0) nsh_base_hdr).2

/-- A 4-byte header (length field 1) announcing IPv4, in front of 5 bytes. -/
def nsh_short_skb : sk_buff :=
  skb_frame 0 ([0x0f, 0x01, 0x02, 0x01] ++ [1, 2, 3, 4, 5]) (htons ETH_P_NSH) 0

/-- A base header announcing IPv4 in front of 3000 bytes of payload. -/
def nsh_big_skb : sk_buff :=
  skb_frame 0 ([0x0f, 0x02, 0x02, 0x01, 0x00, 0x00, 0x01, 0xff] ++ List.replicate 3000 0x55)
    (htons ETH_P_NSH) 0

/-- A delegate that fails with the feature mask it was handed as its error
value and leaves the buffer alone. -/
def gso_probe : sk_buff → Nat → segs_ptr × sk_buff :=
  fun skb features => (Except.error (features : Int), skb)

/-- An encapsulated IPv4 packet in checksum-complete state. -/
def nsh_ipv4_complete_skb : sk_buff :=
  { nsh_ipv4_skb with ip_summed := CHECKSUM_COMPLETE, csum := 0x1234 }

/-- An encapsulated IPv4 packet behind 14 bytes of link framing: the front
and the network marker at the NSH header, the link-layer marker 14 bytes
before it. -/
def nsh_framed_skb : sk_buff :=
  { nsh_ipv4_skb with mac_header := 10, network_header := 24, mac_len := 14 }

/-- The fragments that `nsh_gso_segment` returns for `nsh_framed_skb` with the
reference splitter at 8 bytes. -/
def nsh_framed_segs : List sk_buff :=
  ((chunks 8 (skb_bytes (nsh_gso_inner nsh_framed_skb))).map
    (link_split_frag (nsh_gso_inner nsh_framed_skb))).map
    (nsh_gso_fixup 8 ((nsh_framed_skb.data : Int) - nsh_framed_skb.mac_header)
      nsh_framed_skb.mac_len)

/-- A 20-byte IPv4 packet in checksum-complete state whose checksum is 0. -/
def ipv4_complete_zero_skb : sk_buff :=
  { skb_frame 32 [0x45, 0, 0, 20, 0, 0, 0, 0, 64, 6, 0, 0, 10, 0, 0, 1, 10, 0, 0, 2]
      (htons ETH_P_IP) 0 with ip_summed := CHECKSUM_COMPLETE, csum := 0 }

/-! ## Basic facts -/

theorem nsh_hdr_len_eq (nh : List Nat) :
    nsh_hdr_len nh = (ver_flags_ttl_len nh % 64) * 4 := by
  unfold nsh_hdr_len NSH_LEN_MASK NSH_LEN_SHIFT
  have h : (0x003f : Nat) = 2 ^ 6 - 1 := by norm_num
  rw [h, Nat.and_pow_two_sub_one_eq_mod, Nat.shiftRight_zero, Nat.shiftLeft_eq]

theorem u16_natCast (n : Nat) : u16 (n : Int) = n % 65536 := by
  unfold u16
  omega

theorem u16_sub_self (n : Int) : u16 (n - n) = 0 := by
  simp [u16]

theorem pskb_may_pull_fst (skb : sk_buff) (n : Nat) :
    (pskb_may_pull skb n).1 = decide (n ≤ skb_len skb) := by
  unfold pskb_may_pull skb_len
  split_ifs with h1 h2
  · simp; omega
  · simp; omega
  · simp; omega

theorem pskb_may_pull_bytes (skb : sk_buff) (n : Nat) (hwf : skb.data ≤ skb.head.length) :
    skb_bytes (pskb_may_pull skb n).2 = skb_bytes skb := by
  unfold pskb_may_pull
  split_ifs with h1 h2
  · rfl
  · rfl
  · simp only [skb_bytes, skb_data, __pskb_pull_tail]
    rw [List.drop_append_of_le_length hwf, List.append_assoc, List.take_append_drop]

/-- Pulling changes the split between linear and paged bytes and nothing else. -/
theorem pskb_may_pull_frame (skb : sk_buff) (n : Nat) :
    (pskb_may_pull skb n).2.data = skb.data ∧
    (pskb_may_pull skb n).2.mac_header = skb.mac_header ∧
    (pskb_may_pull skb n).2.network_header = skb.network_header ∧
    (pskb_may_pull skb n).2.transport_header = skb.transport_header ∧
    (pskb_may_pull skb n).2.mac_len = skb.mac_len ∧
    (pskb_may_pull skb n).2.protocol = skb.protocol ∧
    (pskb_may_pull skb n).2.ip_summed = skb.ip_summed ∧
    (pskb_may_pull skb n).2.csum = skb.csum ∧
    (pskb_may_pull skb n).2.csum_start = skb.csum_start ∧
    (pskb_may_pull skb n).2.encapsulation = skb.encapsulation := by
  unfold pskb_may_pull
  split_ifs <;> simp [__pskb_pull_tail]

theorem pskb_may_pull_wf (skb : sk_buff) (n : Nat) (hwf : skb.data ≤ skb.head.length) :
    (pskb_may_pull skb n).2.data ≤ (pskb_may_pull skb n).2.head.length := by
  unfold pskb_may_pull
  split_ifs <;> simp [__pskb_pull_tail] <;> omega

theorem pskb_may_pull_headlen (skb : sk_buff) (n : Nat) (hwf : skb.data ≤ skb.head.length)
    (hn : n ≤ skb_len skb) : n ≤ skb_headlen (pskb_may_pull skb n).2 := by
  unfold pskb_may_pull
  unfold skb_len at hn
  split_ifs with h1 h2
  · exact h1
  · unfold skb_len at h2; omega
  · simp only [skb_headlen, __pskb_pull_tail, List.length_append, List.length_take] at *
    omega

theorem skb_len_eq (skb : sk_buff) : skb_len skb = (skb_bytes skb).length := by
  simp [skb_len, skb_bytes, skb_data, skb_headlen]

theorem nsh_fields_append (a b : List Nat) (h : 4 ≤ a.length) :
    nsh_hdr_len (a ++ b) = nsh_hdr_len a ∧ nsh_np (a ++ b) = nsh_np a := by
  unfold nsh_hdr_len ver_flags_ttl_len nsh_np
  rw [List.getD_append a b 0 0 (by omega), List.getD_append a b 0 1 (by omega),
    List.getD_append a b 0 3 (by omega)]
  exact ⟨rfl, rfl⟩

/-- After a successful pull of at least four bytes the header fields read from
the linear part are those of the packet bytes. -/
theorem nsh_fields_pulled (skb : sk_buff) (n : Nat) (hwf : skb.data ≤ skb.head.length)
    (h4 : 4 ≤ n) (hn : n ≤ skb_len skb) :
    nsh_hdr_len (skb_data (pskb_may_pull skb n).2) = nsh_hdr_len (skb_bytes skb) ∧
    nsh_np (skb_data (pskb_may_pull skb n).2) = nsh_np (skb_bytes skb) := by
  have hl := pskb_may_pull_headlen skb n hwf hn
  have hb := pskb_may_pull_bytes skb n hwf
  have hlen : 4 ≤ (skb_data (pskb_may_pull skb n).2).length := by
    simp only [skb_data, List.length_drop]
    simp only [skb_headlen] at hl
    omega
  have := nsh_fields_append (skb_data (pskb_may_pull skb n).2) (pskb_may_pull skb n).2.frags hlen
  rw [← hb]
  simp only [skb_bytes]
  exact ⟨this.1.symm, this.2.symm⟩

theorem tun_p_from_to (c : Nat) (h : tun_p_to_eth_p c ≠ 0) :
    tun_p_from_eth_p (tun_p_to_eth_p c) = c := by
  unfold tun_p_to_eth_p at h ⊢
  split_ifs at h ⊢ with h1 h2 h3 h4 h5
  · subst h1; decide
  · subst h2; decide
  · subst h3; decide
  · subst h4; decide
  · subst h5; decide
  · exact absurd rfl h

theorem tun_p_to_from (p : Nat) (h : tun_p_from_eth_p p ≠ 0) :
    tun_p_to_eth_p (tun_p_from_eth_p p) = p := by
  unfold tun_p_from_eth_p at h ⊢
  split_ifs at h ⊢ with h1 h2 h3 h4 h5
  · subst h1; decide
  · subst h2; decide
  · subst h3; decide
  · subst h4; decide
  · subst h5; decide
  · exact absurd rfl h

/-- Return code of `ovs_nsh_pop` in terms of the packet bytes. -/
theorem ovs_nsh_pop_ret (skb : sk_buff) (hwf : skb.data ≤ skb.head.length) :
    (ovs_nsh_pop skb).1 =
      if skb_len skb < NSH_BASE_HDR_LEN then -ENOMEM
      else if skb_len skb < nsh_hdr_len (skb_bytes skb) then -ENOMEM
      else if tun_p_to_eth_p (nsh_np (skb_bytes skb)) = 0 then -EAFNOSUPPORT
      else 0 := by
  by_cases h8 : skb_len skb < NSH_BASE_HDR_LEN
  · simp [ovs_nsh_pop, pskb_may_pull_fst, h8]
  · have h8' : NSH_BASE_HDR_LEN ≤ skb_len skb := by omega
    have hf := nsh_fields_pulled skb NSH_BASE_HDR_LEN hwf (by decide) h8'
    have hwf1 := pskb_may_pull_wf skb NSH_BASE_HDR_LEN hwf
    have hlen1 : skb_len (pskb_may_pull skb NSH_BASE_HDR_LEN).2 = skb_len skb := by
      rw [skb_len_eq, skb_len_eq, pskb_may_pull_bytes skb _ hwf]
    simp only [ovs_nsh_pop, pskb_may_pull_fst, hf.1, hf.2, hlen1, h8]
    by_cases hF : skb_len skb < nsh_hdr_len (skb_bytes skb)
    · simp [hF, h8']
    · have hF' : nsh_hdr_len (skb_bytes skb) ≤ skb_len skb := by omega
      by_cases hp : tun_p_to_eth_p (nsh_np (skb_bytes skb)) = 0
      · simp [hF, hF', h8', hp]
      · simp [hF, hF', h8', hp]

/-- What `skb_pull_rcsum` leaves alone, and where it moves the front. -/
theorem skb_pull_rcsum_frame (skb : sk_buff) (n : Nat) :
    (skb_pull_rcsum skb n).head = skb.head ∧
    (skb_pull_rcsum skb n).frags = skb.frags ∧
    (skb_pull_rcsum skb n).data = skb.data + n ∧
    (skb_pull_rcsum skb n).mac_header = skb.mac_header ∧
    (skb_pull_rcsum skb n).network_header = skb.network_header ∧
    (skb_pull_rcsum skb n).transport_header = skb.transport_header ∧
    (skb_pull_rcsum skb n).mac_len = skb.mac_len ∧
    (skb_pull_rcsum skb n).protocol = skb.protocol ∧
    (skb_pull_rcsum skb n).cloned = skb.cloned ∧
    (skb_pull_rcsum skb n).encapsulation = skb.encapsulation := by
  unfold skb_pull_rcsum skb_postpull_rcsum
  simp only [__skb_pull]
  split_ifs <;> simp

/-- The buffer that a successful `ovs_nsh_pop` leaves, field by field. -/
theorem ovs_nsh_pop_snd (skb : sk_buff) (hwf : skb.data ≤ skb.head.length)
    (h : (ovs_nsh_pop skb).1 = 0) :
    NSH_BASE_HDR_LEN ≤ skb_len skb ∧
    nsh_hdr_len (skb_bytes skb) ≤ skb_len skb ∧
    tun_p_to_eth_p (nsh_np (skb_bytes skb)) ≠ 0 ∧
    (ovs_nsh_pop skb).2 =
      { skb_reset_mac_len (skb_reset_network_header (skb_reset_mac_header
          (skb_pull_rcsum
            (pskb_may_pull (pskb_may_pull skb NSH_BASE_HDR_LEN).2
              (nsh_hdr_len (skb_bytes skb))).2
            (nsh_hdr_len (skb_bytes skb))))) with
        protocol := tun_p_to_eth_p (nsh_np (skb_bytes skb)) } := by
  rw [ovs_nsh_pop_ret skb hwf] at h
  have hne : (-ENOMEM : Int) ≠ 0 := by decide
  have hne2 : (-EAFNOSUPPORT : Int) ≠ 0 := by decide
  split_ifs at h with h1 h2 h3
  · exact absurd h hne
  · exact absurd h hne
  · exact absurd h hne2
  · have h8 : NSH_BASE_HDR_LEN ≤ skb_len skb := by omega
    have hF : nsh_hdr_len (skb_bytes skb) ≤ skb_len skb := by omega
    refine ⟨h8, hF, h3, ?_⟩
    have hf := nsh_fields_pulled skb NSH_BASE_HDR_LEN hwf (by decide) h8
    have hlen1 : skb_len (pskb_may_pull skb NSH_BASE_HDR_LEN).2 = skb_len skb := by
      rw [skb_len_eq, skb_len_eq, pskb_may_pull_bytes skb _ hwf]
    simp [ovs_nsh_pop, pskb_may_pull_fst, hf.1, hf.2, hlen1, h8, hF, h3]

/-- Everything a successful `ovs_nsh_pop` establishes about the buffer. -/
theorem ovs_nsh_pop_ok_fields (skb : sk_buff) (hwf : skb.data ≤ skb.head.length)
    (h : (ovs_nsh_pop skb).1 = 0) :
    nsh_hdr_len (skb_bytes skb) ≤ (skb_bytes skb).length ∧
    skb_bytes (ovs_nsh_pop skb).2 = (skb_bytes skb).drop (nsh_hdr_len (skb_bytes skb)) ∧
    (ovs_nsh_pop skb).2.protocol = tun_p_to_eth_p (nsh_np (skb_bytes skb)) ∧
    (ovs_nsh_pop skb).2.data = skb.data + nsh_hdr_len (skb_bytes skb) ∧
    (ovs_nsh_pop skb).2.data ≤ (ovs_nsh_pop skb).2.head.length ∧
    (ovs_nsh_pop skb).2.mac_header = (ovs_nsh_pop skb).2.data % 65536 ∧
    (ovs_nsh_pop skb).2.network_header = (ovs_nsh_pop skb).2.data % 65536 ∧
    (ovs_nsh_pop skb).2.mac_len = 0 := by
  obtain ⟨h8, hF, hp, heq⟩ := ovs_nsh_pop_snd skb hwf h
  have hwf1 := pskb_may_pull_wf skb NSH_BASE_HDR_LEN hwf
  have hb1 := pskb_may_pull_bytes skb NSH_BASE_HDR_LEN hwf
  have hlen1 : skb_len (pskb_may_pull skb NSH_BASE_HDR_LEN).2 = skb_len skb := by
    rw [skb_len_eq, skb_len_eq, hb1]
  have hF1 : nsh_hdr_len (skb_bytes skb) ≤ skb_len (pskb_may_pull skb NSH_BASE_HDR_LEN).2 := by
    omega
  generalize hr1 : (pskb_may_pull skb NSH_BASE_HDR_LEN).2 = r1 at *
  generalize hFd : nsh_hdr_len (skb_bytes skb) = F at *
  have hwf2 := pskb_may_pull_wf r1 F hwf1
  have hb2 := pskb_may_pull_bytes r1 F hwf1
  have hl2 := pskb_may_pull_headlen r1 F hwf1 hF1
  obtain ⟨fd, _, _, _, _, _, _, _, _, _⟩ := pskb_may_pull_frame r1 F
  obtain ⟨fd1, _, _, _, _, _, _, _, _, _⟩ := pskb_may_pull_frame skb NSH_BASE_HDR_LEN
  rw [hr1] at fd1
  generalize hr2 : (pskb_may_pull r1 F).2 = r2 at *
  obtain ⟨ph, pf, pd, _, _, _, _, _, _, _⟩ := skb_pull_rcsum_frame r2 F
  have hdata : (ovs_nsh_pop skb).2.data = skb.data + F := by
    rw [heq]; simp [skb_reset_mac_len, skb_reset_network_header, skb_reset_mac_header, pd]
    omega
  have hhead : (ovs_nsh_pop skb).2.head = r2.head := by
    rw [heq]; simp [skb_reset_mac_len, skb_reset_network_header, skb_reset_mac_header, ph]
  have hfrags : (ovs_nsh_pop skb).2.frags = r2.frags := by
    rw [heq]; simp [skb_reset_mac_len, skb_reset_network_header, skb_reset_mac_header, pf]
  have hd2 : F ≤ (skb_data r2).length := by
    simp only [skb_data, List.length_drop]; simpa [skb_headlen] using hl2
  refine ⟨by rw [← skb_len_eq]; exact hF, ?_, ?_, hdata, ?_, ?_, ?_, ?_⟩
  · rw [← hb1, ← hb2]
    simp only [skb_bytes, skb_data, hhead, hfrags, hdata]
    rw [show skb.data + F = r2.data + F by omega, ← List.drop_drop]
    simp only [skb_data] at hd2
    rw [List.drop_append_of_le_length hd2]
  · rw [heq]
  · rw [hhead, hdata]
    simp only [skb_headlen] at hl2
    omega
  · rw [heq]
    simp [skb_reset_mac_len, skb_reset_network_header, skb_reset_mac_header, u16_natCast]
  · rw [heq]
    simp [skb_reset_mac_len, skb_reset_network_header, skb_reset_mac_header, u16_natCast]
  · rw [heq]
    simp [skb_reset_mac_len, skb_reset_network_header, skb_reset_mac_header]
    rfl

theorem memcpy_src_length (src : List Nat) (n : Nat) : (memcpy_src src n).length = n := by
  simp [memcpy_src]

theorem memcpy_src_eq (src : List Nat) (n : Nat) (h : n ≤ src.length) :
    memcpy_src src n = src.take n := by
  simp [memcpy_src, List.take_append_of_le_length h]

/-- Return code and frame of `skb_cow_head`. -/
theorem skb_cow_head_spec (gfp_ok : Bool) (skb : sk_buff) (n : Nat)
    (hwf : skb.data ≤ skb.head.length) :
    ((skb_cow_head gfp_ok skb n).1 = 0 ∨
      ((skb_cow_head gfp_ok skb n).1 = -ENOMEM ∧ gfp_ok = false ∧
        (skb.data < n ∨ skb.cloned = true) ∧ (skb_cow_head gfp_ok skb n).2 = skb)) ∧
    ((gfp_ok = true ∨ (n ≤ skb.data ∧ skb.cloned = false)) → (skb_cow_head gfp_ok skb n).1 = 0) ∧
    ((skb_cow_head gfp_ok skb n).1 = 0 →
      n ≤ (skb_cow_head gfp_ok skb n).2.data ∧
      (skb_cow_head gfp_ok skb n).2.data ≤ (skb_cow_head gfp_ok skb n).2.head.length ∧
      skb_data (skb_cow_head gfp_ok skb n).2 = skb_data skb ∧
      (skb_cow_head gfp_ok skb n).2.frags = skb.frags ∧
      (skb_cow_head gfp_ok skb n).2.mac_len = skb.mac_len ∧
      (skb_cow_head gfp_ok skb n).2.protocol = skb.protocol ∧
      (skb_cow_head gfp_ok skb n).2.ip_summed = skb.ip_summed ∧
      (skb_cow_head gfp_ok skb n).2.csum = skb.csum ∧
      (skb_cow_head gfp_ok skb n).2.encapsulation = skb.encapsulation) := by
  have hne : (-ENOMEM : Int) ≠ 0 := by decide
  have hal : ∀ d, d ≤ ALIGN d NET_SKB_PAD := by
    intro d
    unfold ALIGN NET_SKB_PAD
    omega
  unfold skb_cow_head pskb_expand_head skb_headroom
  cases gfp_ok
  · by_cases h1 : n > skb.data
    · have : n - skb.data ≠ 0 := by omega
      simp [h1, this, hne]
    · by_cases hc : skb.cloned = true
      · simp [h1, hc, hne]
      · simp [h1, hc]
        exact ⟨by omega, hwf⟩
  · by_cases h1 : n > skb.data
    · have h2 : n - skb.data ≠ 0 := by omega
      have h3 := hal (n - skb.data)
      simp [h1, h2, skb_headers_offset_update, skb_data]
      refine ⟨by omega, by omega, ?_⟩
      rw [Nat.add_comm, ← List.drop_drop]
      rw [List.drop_left' (by simp)]
    · by_cases hc : skb.cloned = true
      · have ha0 : ALIGN 0 NET_SKB_PAD = 0 := by decide
        simp [h1, hc, skb_headers_offset_update, skb_data, ha0]
        exact ⟨by omega, hwf⟩
      · simp [h1, hc]
        exact ⟨by omega, hwf⟩

/-- The code `skb_cow_head` returns is `0` or `-ENOMEM`, and on `-ENOMEM` the
buffer is untouched. -/
theorem skb_cow_head_ret (gfp_ok : Bool) (skb : sk_buff) (n : Nat) :
    (skb_cow_head gfp_ok skb n).1 = 0 ∨
      ((skb_cow_head gfp_ok skb n).1 = -ENOMEM ∧ (skb_cow_head gfp_ok skb n).2 = skb) := by
  unfold skb_cow_head pskb_expand_head
  cases gfp_ok
  · simp only [Bool.false_eq_true, if_false]
    split_ifs <;> first | exact Or.inl rfl | exact Or.inr ⟨rfl, rfl⟩
  · simp only [if_true]
    split_ifs <;> exact Or.inl rfl

/-- Return code of `ovs_nsh_push`. -/
theorem ovs_nsh_push_ret (gfp_ok : Bool) (skb : sk_buff) (t : List Nat) :
    (ovs_nsh_push gfp_ok skb t).1 =
      if skb.mac_len = 0 ∧ tun_p_from_eth_p skb.protocol = 0 then -EAFNOSUPPORT
      else if (skb_cow_head gfp_ok skb (nsh_hdr_len t)).1 < 0 then -ENOMEM
      else 0 := by
  unfold ovs_nsh_push
  by_cases hm : skb.mac_len = 0
  · by_cases hp : tun_p_from_eth_p skb.protocol = 0
    · simp [hm, hp]
    · simp only [hm, hp, ne_eq, not_true_eq_false, if_false, and_false]
      split_ifs <;> rfl
  · simp only [hm, ne_eq, not_false_eq_true, if_true, false_and, if_false]
    split_ifs <;> rfl

/-- The buffer a successful `ovs_nsh_push` leaves, in terms of the buffer that
`skb_cow_head` hands back. -/
theorem ovs_nsh_push_snd (gfp_ok : Bool) (skb : sk_buff) (t : List Nat)
    (h : (ovs_nsh_push gfp_ok skb t).1 = 0) :
    ¬ (skb.mac_len = 0 ∧ tun_p_from_eth_p skb.protocol = 0) ∧
    (skb_cow_head gfp_ok skb (nsh_hdr_len t)).1 = 0 ∧
    (ovs_nsh_push gfp_ok skb t).2 =
      skb_reset_mac_len (skb_reset_network_header (skb_reset_mac_header
        { skb_postpush_rcsum
            { skb_push (skb_cow_head gfp_ok skb (nsh_hdr_len t)).2 (nsh_hdr_len t) with
              head :=
                (memcpy (skb_cow_head gfp_ok skb (nsh_hdr_len t)).2.head
                  ((skb_cow_head gfp_ok skb (nsh_hdr_len t)).2.data - nsh_hdr_len t) t
                  (nsh_hdr_len t)).set
                  ((skb_cow_head gfp_ok skb (nsh_hdr_len t)).2.data - nsh_hdr_len t + 3)
                  (push_next_proto skb) }
            (((memcpy (skb_cow_head gfp_ok skb (nsh_hdr_len t)).2.head
                  ((skb_cow_head gfp_ok skb (nsh_hdr_len t)).2.data - nsh_hdr_len t) t
                  (nsh_hdr_len t)).set
                  ((skb_cow_head gfp_ok skb (nsh_hdr_len t)).2.data - nsh_hdr_len t + 3)
                  (push_next_proto skb)).drop
              ((skb_cow_head gfp_ok skb (nsh_hdr_len t)).2.data - nsh_hdr_len t))
            (nsh_hdr_len t) with
          protocol := htons ETH_P_NSH })) := by
  have hne : (-ENOMEM : Int) ≠ 0 := by decide
  have hne2 : (-EAFNOSUPPORT : Int) ≠ 0 := by decide
  have hr := ovs_nsh_push_ret gfp_ok skb t
  rw [h] at hr
  split_ifs at hr with h1 h2
  · exact absurd hr.symm hne2
  · exact absurd hr.symm hne
  · have hc : (skb_cow_head gfp_ok skb (nsh_hdr_len t)).1 = 0 := by
      rcases skb_cow_head_ret gfp_ok skb (nsh_hdr_len t) with h0 | h0
      · exact h0
      · rw [h0.1] at h2; exact absurd (by decide) h2
    refine ⟨h1, hc, ?_⟩
    have hnlt : ¬ (skb_cow_head gfp_ok skb (nsh_hdr_len t)).1 < 0 := h2
    have hcond : ¬ (skb.mac_len = 0 ∧
        (if skb.mac_len ≠ 0 then TUN_P_ETHERNET else tun_p_from_eth_p skb.protocol) = 0) := by
      rintro ⟨hm, hz⟩
      simp only [hm, ne_eq, not_true_eq_false, if_false] at hz
      exact h1 ⟨hm, hz⟩
    unfold ovs_nsh_push
    simp only [hcond, hnlt, if_false]
    simp only [skb_push, skb_data, push_next_proto]

theorem memcpy_set_drop (h : List Nat) (d : Nat) (src : List Nat) (n np : Nat)
    (hd : d ≤ h.length) :
    ((memcpy h d src n).set (d + 3) np).drop d =
      (memcpy_src src n ++ h.drop (d + n)).set 3 np := by
  unfold memcpy
  have hl : (h.take d).length = d := by simp [hd]
  rw [List.append_assoc, List.set_append_right _ _ (by omega), hl, List.drop_left' hl]
  simp

theorem memcpy_length (h : List Nat) (d : Nat) (src : List Nat) (n : Nat)
    (hd : d + n ≤ h.length) : (memcpy h d src n).length = h.length := by
  unfold memcpy
  simp [memcpy_src_length]
  omega

/-- What `skb_postpush_rcsum` leaves alone. -/
theorem skb_postpush_rcsum_frame (skb : sk_buff) (start : List Nat) (n : Nat) :
    (skb_postpush_rcsum skb start n).head = skb.head ∧
    (skb_postpush_rcsum skb start n).frags = skb.frags ∧
    (skb_postpush_rcsum skb start n).data = skb.data ∧
    (skb_postpush_rcsum skb start n).mac_header = skb.mac_header ∧
    (skb_postpush_rcsum skb start n).network_header = skb.network_header ∧
    (skb_postpush_rcsum skb start n).transport_header = skb.transport_header ∧
    (skb_postpush_rcsum skb start n).mac_len = skb.mac_len ∧
    (skb_postpush_rcsum skb start n).protocol = skb.protocol ∧
    (skb_postpush_rcsum skb start n).ip_summed = skb.ip_summed ∧
    (skb_postpush_rcsum skb start n).cloned = skb.cloned ∧
    (skb_postpush_rcsum skb start n).encapsulation = skb.encapsulation := by
  unfold skb_postpush_rcsum
  split_ifs <;> simp

/-- Everything a successful `ovs_nsh_push` establishes about the buffer. -/
theorem ovs_nsh_push_ok_fields (gfp_ok : Bool) (skb : sk_buff) (t : List Nat)
    (hwf : skb.data ≤ skb.head.length) (h : (ovs_nsh_push gfp_ok skb t).1 = 0) :
    skb_data (ovs_nsh_push gfp_ok skb t).2 =
      (memcpy_src t (nsh_hdr_len t) ++ skb_data skb).set 3 (push_next_proto skb) ∧
    (ovs_nsh_push gfp_ok skb t).2.frags = skb.frags ∧
    (ovs_nsh_push gfp_ok skb t).2.data ≤ (ovs_nsh_push gfp_ok skb t).2.head.length ∧
    (ovs_nsh_push gfp_ok skb t).2.protocol = htons ETH_P_NSH ∧
    (ovs_nsh_push gfp_ok skb t).2.mac_header = (ovs_nsh_push gfp_ok skb t).2.data % 65536 ∧
    (ovs_nsh_push gfp_ok skb t).2.network_header = (ovs_nsh_push gfp_ok skb t).2.data % 65536 ∧
    (ovs_nsh_push gfp_ok skb t).2.mac_len = 0 := by
  obtain ⟨_, hc, heq⟩ := ovs_nsh_push_snd gfp_ok skb t h
  obtain ⟨hL, hwfc, hdc, hfc, _⟩ := (skb_cow_head_spec gfp_ok skb (nsh_hdr_len t) hwf).2.2 hc
  generalize (skb_cow_head gfp_ok skb (nsh_hdr_len t)).2 = c at *
  generalize nsh_hdr_len t = L at *
  have hd : c.data - L ≤ c.head.length := by omega
  have hdrop := memcpy_set_drop c.head (c.data - L) t L (push_next_proto skb) hd
  rw [show c.data - L + L = c.data by omega] at hdrop
  have hlen : ((memcpy c.head (c.data - L) t L).set (c.data - L + 3) (push_next_proto skb)).length
      = c.head.length := by
    rw [List.length_set, memcpy_length _ _ _ _ (by omega)]
  rw [heq]
  obtain ⟨ph, pf, pd, _⟩ := skb_postpush_rcsum_frame
    { skb_push c L with
      head := (memcpy c.head (c.data - L) t L).set (c.data - L + 3) (push_next_proto skb) }
    (((memcpy c.head (c.data - L) t L).set (c.data - L + 3) (push_next_proto skb)).drop
      (c.data - L)) L
  refine ⟨?_, ?_, ?_, ?_, ?_, ?_, ?_⟩
  · simp only [skb_data, skb_reset_mac_len, skb_reset_network_header, skb_reset_mac_header, ph, pd]
    simp only [skb_push]
    rw [hdrop]
    simp only [skb_data] at hdc
    rw [hdc]
  · simp only [skb_reset_mac_len, skb_reset_network_header, skb_reset_mac_header, pf]
    simp only [skb_push]
    exact hfc
  · simp only [skb_reset_mac_len, skb_reset_network_header, skb_reset_mac_header, ph, pd]
    simp only [skb_push]
    rw [hlen]
    omega
  · simp [skb_reset_mac_len, skb_reset_network_header, skb_reset_mac_header]
  · simp [skb_reset_mac_len, skb_reset_network_header, skb_reset_mac_header, u16_natCast]
  · simp [skb_reset_mac_len, skb_reset_network_header, skb_reset_mac_header, u16_natCast]
  · simp [skb_reset_mac_len, skb_reset_network_header, skb_reset_mac_header]
    rfl

/-- The packet bytes after a successful `ovs_nsh_push`. -/
theorem ovs_nsh_push_bytes (gfp_ok : Bool) (skb : sk_buff) (t : List Nat)
    (hwf : skb.data ≤ skb.head.length) (h : (ovs_nsh_push gfp_ok skb t).1 = 0) :
    skb_bytes (ovs_nsh_push gfp_ok skb t).2 =
      (memcpy_src t (nsh_hdr_len t) ++ skb_data skb).set 3 (push_next_proto skb) ++ skb.frags := by
  obtain ⟨h1, h2, _⟩ := ovs_nsh_push_ok_fields gfp_ok skb t hwf h
  simp only [skb_bytes, h1, h2]

/-- Header fields of a copied template of at least four bytes whose
next-protocol byte was overwritten. -/
theorem nsh_fields_written (t : List Nat) (n np : Nat) (h4 : 4 ≤ n) (ht : n ≤ t.length) :
    nsh_hdr_len ((t.take n).set 3 np) = nsh_hdr_len t ∧ nsh_np ((t.take n).set 3 np) = np := by
  have hl : 3 < (t.take n).length := by simp; omega
  constructor
  · unfold nsh_hdr_len ver_flags_ttl_len
    simp only [List.getD_eq_getElem?_getD]
    rw [List.getElem?_set_ne (by decide), List.getElem?_set_ne (by decide),
      List.getElem?_take_of_lt (by omega), List.getElem?_take_of_lt (by omega)]
  · unfold nsh_np
    rw [List.getD_eq_getElem _ _ (by simpa using hl)]
    simp

theorem tun_p_from_eth_p_zero : tun_p_from_eth_p 0 = 0 := by decide

/-- Round trip of push and pop, for the inputs on which it holds. -/
theorem ovs_nsh_push_pop (gfp_ok : Bool) (skb : sk_buff) (t : List Nat)
    (hwf : skb.data ≤ skb.head.length)
    (hp : tun_p_from_eth_p skb.protocol ≠ 0)
    (hm : skb.mac_len = 0 ∨ skb.protocol = htons ETH_P_TEB)
    (hL4 : 4 ≤ nsh_hdr_len t)
    (hL8 : NSH_BASE_HDR_LEN ≤ nsh_hdr_len t + skb_len skb)
    (ht : nsh_hdr_len t ≤ t.length)
    (hg : gfp_ok = true ∨ (nsh_hdr_len t ≤ skb.data ∧ skb.cloned = false)) :
    (ovs_nsh_push gfp_ok skb t).1 = 0 ∧
    (ovs_nsh_pop (ovs_nsh_push gfp_ok skb t).2).1 = 0 ∧
    (ovs_nsh_pop (ovs_nsh_push gfp_ok skb t).2).2.protocol = skb.protocol ∧
    skb_bytes (ovs_nsh_pop (ovs_nsh_push gfp_ok skb t).2).2 = skb_bytes skb := by
  have hcow := (skb_cow_head_spec gfp_ok skb (nsh_hdr_len t) hwf).2.1 hg
  have hpush : (ovs_nsh_push gfp_ok skb t).1 = 0 := by
    rw [ovs_nsh_push_ret]
    have h1 : ¬ (skb.mac_len = 0 ∧ tun_p_from_eth_p skb.protocol = 0) := fun h => hp h.2
    have h2 : ¬ (skb_cow_head gfp_ok skb (nsh_hdr_len t)).1 < 0 := by rw [hcow]; decide
    simp only [h1, h2, if_false]
  obtain ⟨_, _, hwf', _⟩ := ovs_nsh_push_ok_fields gfp_ok skb t hwf hpush
  have hb := ovs_nsh_push_bytes gfp_ok skb t hwf hpush
  have hT := memcpy_src_eq t (nsh_hdr_len t) ht
  have hTl : (t.take (nsh_hdr_len t)).length = nsh_hdr_len t := by simp [ht]
  have hsl : ((t.take (nsh_hdr_len t)).set 3 (push_next_proto skb)).length = nsh_hdr_len t := by
    rw [List.length_set, hTl]
  have hb' : skb_bytes (ovs_nsh_push gfp_ok skb t).2 =
      (t.take (nsh_hdr_len t)).set 3 (push_next_proto skb) ++ skb_bytes skb := by
    rw [hb, hT, List.set_append_left _ _ (by omega), List.append_assoc]
    rfl
  obtain ⟨hw1, hw2⟩ := nsh_fields_written t (nsh_hdr_len t) (push_next_proto skb) hL4 ht
  obtain ⟨ha1, ha2⟩ := nsh_fields_append
    ((t.take (nsh_hdr_len t)).set 3 (push_next_proto skb)) (skb_bytes skb) (by omega)
  have hF : nsh_hdr_len (skb_bytes (ovs_nsh_push gfp_ok skb t).2) = nsh_hdr_len t := by
    rw [hb', ha1, hw1]
  have hnp : nsh_np (skb_bytes (ovs_nsh_push gfp_ok skb t).2) = push_next_proto skb := by
    rw [hb', ha2, hw2]
  have hlen : skb_len (ovs_nsh_push gfp_ok skb t).2 = nsh_hdr_len t + skb_len skb := by
    rw [skb_len_eq, skb_len_eq, hb', List.length_append, hsl]
  have hdec : tun_p_to_eth_p (push_next_proto skb) = skb.protocol := by
    unfold push_next_proto
    by_cases hmz : skb.mac_len = 0
    · simp only [hmz, ne_eq, not_true_eq_false, if_false]
      exact tun_p_to_from _ hp
    · simp only [hmz, ne_eq, not_false_eq_true, if_true]
      rcases hm with hm | hm
      · exact absurd hm hmz
      · rw [hm]; decide
  have hp0 : skb.protocol ≠ 0 := by
    intro h0
    rw [h0] at hp
    exact hp tun_p_from_eth_p_zero
  have hpop : (ovs_nsh_pop (ovs_nsh_push gfp_ok skb t).2).1 = 0 := by
    rw [ovs_nsh_pop_ret _ hwf', hF, hnp, hlen, hdec]
    have h1 : ¬ nsh_hdr_len t + skb_len skb < NSH_BASE_HDR_LEN := by omega
    have h2 : ¬ nsh_hdr_len t + skb_len skb < nsh_hdr_len t := by omega
    simp only [h1, h2, hp0, if_false]
  obtain ⟨_, k2, k3, _⟩ := ovs_nsh_pop_ok_fields _ hwf' hpop
  refine ⟨hpush, hpop, ?_, ?_⟩
  · rw [k3, hnp, hdec]
  · rw [k2, hF, hb', List.drop_left' hsl]

theorem pskb_may_pull_headlen_mono (skb : sk_buff) (n : Nat) :
    skb_headlen skb ≤ skb_headlen (pskb_may_pull skb n).2 := by
  unfold pskb_may_pull
  split_ifs
  · exact Nat.le_refl _
  · exact Nat.le_refl _
  · simp only [skb_headlen, __pskb_pull_tail, List.length_append]
    omega

/-- With four linear bytes the header fields read at the front are those of
the packet bytes. -/
theorem nsh_fields_linear (skb : sk_buff) (h4 : 4 ≤ skb_headlen skb) :
    nsh_hdr_len (skb_data skb) = nsh_hdr_len (skb_bytes skb) ∧
    nsh_np (skb_data skb) = nsh_np (skb_bytes skb) := by
  have hlen : 4 ≤ (skb_data skb).length := by
    simpa [skb_data, skb_headlen] using h4
  have := nsh_fields_append (skb_data skb) skb.frags hlen
  exact ⟨this.1.symm, this.2.symm⟩

/-- The header checks of `nsh_gso_segment`, in terms of the packet bytes. -/
theorem nsh_gso_checks (skb : sk_buff) (hwf : skb.data ≤ skb.head.length)
    (hd : skb.data < 65536) (h8 : NSH_BASE_HDR_LEN ≤ skb_len skb) :
    (pskb_may_pull (skb_reset_network_header skb) NSH_BASE_HDR_LEN).1 = true ∧
    nsh_hdr_len (nsh_hdr (pskb_may_pull (skb_reset_network_header skb) NSH_BASE_HDR_LEN).2) =
      nsh_hdr_len (skb_bytes skb) ∧
    (pskb_may_pull (pskb_may_pull (skb_reset_network_header skb) NSH_BASE_HDR_LEN).2
      (nsh_hdr_len (skb_bytes skb))).1 = decide (nsh_hdr_len (skb_bytes skb) ≤ skb_len skb) ∧
    nsh_np (nsh_hdr (pskb_may_pull
      (pskb_may_pull (skb_reset_network_header skb) NSH_BASE_HDR_LEN).2
      (nsh_hdr_len (skb_bytes skb))).2) = nsh_np (skb_bytes skb) := by
  have hb0 : skb_bytes (skb_reset_network_header skb) = skb_bytes skb := rfl
  have hl0 : skb_len (skb_reset_network_header skb) = skb_len skb := rfl
  have hwf0 : (skb_reset_network_header skb).data ≤ (skb_reset_network_header skb).head.length :=
    hwf
  have hn0 : (skb_reset_network_header skb).network_header = skb.data := by
    simp only [skb_reset_network_header, u16_natCast]
    omega
  have hd0 : (skb_reset_network_header skb).data = skb.data := rfl
  generalize skb_reset_network_header skb = skb0 at *
  have hwf1 := pskb_may_pull_wf skb0 NSH_BASE_HDR_LEN hwf0
  have hb1 := pskb_may_pull_bytes skb0 NSH_BASE_HDR_LEN hwf0
  have hh1 := pskb_may_pull_headlen skb0 NSH_BASE_HDR_LEN hwf0 (by omega)
  obtain ⟨fd1, _, fn1, _⟩ := pskb_may_pull_frame skb0 NSH_BASE_HDR_LEN
  have hf1 := pskb_may_pull_fst skb0 NSH_BASE_HDR_LEN
  generalize (pskb_may_pull skb0 NSH_BASE_HDR_LEN) = p1 at *
  have hnh1 : nsh_hdr p1.2 = skb_data p1.2 := by
    simp only [nsh_hdr, skb_data, fn1, fd1, hn0, hd0]
  have hlin1 := nsh_fields_linear p1.2 (by unfold NSH_BASE_HDR_LEN at hh1; omega)
  have hl1 : skb_len p1.2 = skb_len skb := by
    rw [skb_len_eq, hb1, hb0, ← skb_len_eq]
  refine ⟨by rw [hf1, hl0]; simpa using h8, ?_, ?_, ?_⟩
  · rw [hnh1, hlin1.1, hb1, hb0]
  · rw [pskb_may_pull_fst, hl1]
  · have hb2 := pskb_may_pull_bytes p1.2 (nsh_hdr_len (skb_bytes skb)) hwf1
    have hm := pskb_may_pull_headlen_mono p1.2 (nsh_hdr_len (skb_bytes skb))
    obtain ⟨fd2, _, fn2, _⟩ := pskb_may_pull_frame p1.2 (nsh_hdr_len (skb_bytes skb))
    generalize (pskb_may_pull p1.2 (nsh_hdr_len (skb_bytes skb))) = p2 at *
    have hnh2 : nsh_hdr p2.2 = skb_data p2.2 := by
      simp only [nsh_hdr, skb_data, fn2, fd2, fn1, fd1, hn0, hd0]
    have hlin2 := nsh_fields_linear p2.2 (by unfold NSH_BASE_HDR_LEN at hh1; omega)
    rw [hnh2, hlin2.2, hb2, hb1, hb0]

/-- Once the header checks pass, `nsh_gso_segment` is the delegate call on
`nsh_gso_inner` followed by the unwind or by the loop over the fragments. -/
theorem nsh_gso_segment_checked (seg : sk_buff → Nat → segs_ptr × sk_buff) (skb : sk_buff)
    (features : Nat) (hwf : skb.data ≤ skb.head.length) (hd : skb.data < 65536)
    (h8 : NSH_BASE_HDR_LEN ≤ skb_len skb)
    (hF : nsh_hdr_len (skb_bytes skb) ≤ skb_len skb)
    (hp : tun_p_to_eth_p (nsh_np (skb_bytes skb)) ≠ 0) :
    nsh_gso_segment seg skb features =
      if IS_ERR_OR_NULL (seg (nsh_gso_inner skb) (features &&& NETIF_F_SG)).1 = true then
        ((seg (nsh_gso_inner skb) (features &&& NETIF_F_SG)).1,
          skb_gso_error_unwind (seg (nsh_gso_inner skb) (features &&& NETIF_F_SG)).2
            (htons ETH_P_NSH) (nsh_hdr_len (skb_bytes skb))
            (u16 (((seg (nsh_gso_inner skb) (features &&& NETIF_F_SG)).2.network_header : Int) -
              ((skb.data : Int) - skb.mac_header))) skb.mac_len)
      else
        ((seg (nsh_gso_inner skb) (features &&& NETIF_F_SG)).1.map
            (List.map (nsh_gso_fixup (nsh_hdr_len (skb_bytes skb))
              ((skb.data : Int) - skb.mac_header) skb.mac_len)),
          (seg (nsh_gso_inner skb) (features &&& NETIF_F_SG)).2) := by
  obtain ⟨c1, c2, c3, c4⟩ := nsh_gso_checks skb hwf hd h8
  have c3' : (pskb_may_pull (pskb_may_pull (skb_reset_network_header skb) NSH_BASE_HDR_LEN).2
      (nsh_hdr_len (skb_bytes skb))).1 = true := by rw [c3]; simpa using hF
  have hn : ((skb_reset_network_header skb).network_header : Int) = (skb.data : Int) := by
    simp only [skb_reset_network_header, u16_natCast]
    omega
  have hinner : nsh_gso_inner skb =
      { skb_reset_mac_len (skb_reset_mac_header (__skb_pull
          (pskb_may_pull (pskb_may_pull (skb_reset_network_header skb) NSH_BASE_HDR_LEN).2
            (nsh_hdr_len (skb_bytes skb))).2 (nsh_hdr_len (skb_bytes skb)))) with
        protocol := tun_p_to_eth_p (nsh_np (skb_bytes skb)) } := by
    simp only [nsh_gso_inner, c2, c4]
  simp only [nsh_gso_segment, c1, c2, c3', c4, hp, hn, ← hinner, if_false, Bool.true_eq_false]
  rfl

/-- The buffer handed to the delegate, field by field. -/
theorem nsh_gso_inner_fields (skb : sk_buff) (hwf : skb.data ≤ skb.head.length)
    (hd : skb.data < 65536) (h8 : NSH_BASE_HDR_LEN ≤ skb_len skb)
    (hF : nsh_hdr_len (skb_bytes skb) ≤ skb_len skb) :
    (nsh_gso_inner skb).data = skb.data + nsh_hdr_len (skb_bytes skb) ∧
    (nsh_gso_inner skb).data ≤ (nsh_gso_inner skb).head.length ∧
    (nsh_gso_inner skb).head.drop skb.data ++ (nsh_gso_inner skb).frags = skb_bytes skb ∧
    skb_bytes (nsh_gso_inner skb) = (skb_bytes skb).drop (nsh_hdr_len (skb_bytes skb)) ∧
    (nsh_gso_inner skb).protocol = tun_p_to_eth_p (nsh_np (skb_bytes skb)) ∧
    (nsh_gso_inner skb).network_header = skb.data ∧
    (nsh_gso_inner skb).mac_header = (skb.data + nsh_hdr_len (skb_bytes skb)) % 65536 ∧
    (nsh_gso_inner skb).mac_len =
      u16 ((skb.data : Int) - ((skb.data + nsh_hdr_len (skb_bytes skb)) % 65536 : Nat)) ∧
    (nsh_gso_inner skb).transport_header = skb.transport_header ∧
    (nsh_gso_inner skb).ip_summed = skb.ip_summed ∧
    (nsh_gso_inner skb).csum = skb.csum ∧
    (nsh_gso_inner skb).csum_start = skb.csum_start ∧
    (nsh_gso_inner skb).encapsulation = skb.encapsulation := by
  obtain ⟨c1, c2, c3, c4⟩ := nsh_gso_checks skb hwf hd h8
  have hinner : nsh_gso_inner skb =
      { skb_reset_mac_len (skb_reset_mac_header (__skb_pull
          (pskb_may_pull (pskb_may_pull (skb_reset_network_header skb) NSH_BASE_HDR_LEN).2
            (nsh_hdr_len (skb_bytes skb))).2 (nsh_hdr_len (skb_bytes skb)))) with
        protocol := tun_p_to_eth_p (nsh_np (skb_bytes skb)) } := by
    simp only [nsh_gso_inner, c2, c4]
  have hb0 : skb_bytes (skb_reset_network_header skb) = skb_bytes skb := rfl
  have hwf0 : (skb_reset_network_header skb).data ≤ (skb_reset_network_header skb).head.length :=
    hwf
  have hn0 : (skb_reset_network_header skb).network_header = skb.data := by
    simp only [skb_reset_network_header, u16_natCast]
    omega
  have hd0 : (skb_reset_network_header skb).data = skb.data := rfl
  have ht0 : (skb_reset_network_header skb).transport_header = skb.transport_header := rfl
  have hi0 : (skb_reset_network_header skb).ip_summed = skb.ip_summed := rfl
  have hc0 : (skb_reset_network_header skb).csum = skb.csum := rfl
  have hs0 : (skb_reset_network_header skb).csum_start = skb.csum_start := rfl
  have he0 : (skb_reset_network_header skb).encapsulation = skb.encapsulation := rfl
  generalize skb_reset_network_header skb = skb0 at *
  have hwf1 := pskb_may_pull_wf skb0 NSH_BASE_HDR_LEN hwf0
  have hb1 := pskb_may_pull_bytes skb0 NSH_BASE_HDR_LEN hwf0
  obtain ⟨fd1, _, fn1, ft1, _, _, fi1, fc1, fs1, fe1⟩ := pskb_may_pull_frame skb0 NSH_BASE_HDR_LEN
  generalize (pskb_may_pull skb0 NSH_BASE_HDR_LEN).2 = r1 at *
  have hl1 : skb_len r1 = skb_len skb := by
    rw [skb_len_eq, hb1, hb0, ← skb_len_eq]
  generalize hFd : nsh_hdr_len (skb_bytes skb) = F at *
  have hwf2 := pskb_may_pull_wf r1 F hwf1
  have hb2 := pskb_may_pull_bytes r1 F hwf1
  have hh2 := pskb_may_pull_headlen r1 F hwf1 (by omega)
  obtain ⟨fd2, _, fn2, ft2, _, _, fi2, fc2, fs2, fe2⟩ := pskb_may_pull_frame r1 F
  generalize (pskb_may_pull r1 F).2 = r2 at *
  have hdl : F ≤ (List.drop r2.data r2.head).length := by
    simpa [skb_headlen] using hh2
  have hbytes : List.drop skb.data r2.head ++ r2.frags = skb_bytes skb := by
    rw [← hb0, ← hb1, ← hb2]
    simp only [skb_bytes, skb_data]
    rw [fd2, fd1, hd0]
  rw [hinner]
  simp only [skb_reset_mac_len, skb_reset_mac_header, __skb_pull, u16_natCast]
  refine ⟨by omega, ?_, hbytes, ?_, trivial, by omega, by omega, ?_, by omega, by omega,
    by omega, by omega, ?_⟩
  · simp only [skb_headlen] at hh2; omega
  · rw [← hb0, ← hb1, ← hb2]
    simp only [skb_bytes, skb_data]
    rw [← List.drop_drop, List.drop_append_of_le_length hdl]
  · rw [fn2, fn1, hn0, fd2, fd1, hd0]
  · rw [fe2, fe1, he0]

/-- The rollback of `nsh_gso_segment` after a delegate that failed without
touching the buffer. -/
theorem nsh_gso_segment_unwind (seg : sk_buff → Nat → segs_ptr × sk_buff) (skb : sk_buff)
    (features : Nat) (hwf : skb.data ≤ skb.head.length) (hd : skb.data < 65536)
    (h8 : NSH_BASE_HDR_LEN ≤ skb_len skb)
    (hF : nsh_hdr_len (skb_bytes skb) ≤ skb_len skb)
    (hp : tun_p_to_eth_p (nsh_np (skb_bytes skb)) ≠ 0)
    (hmac : skb.mac_header < 65536)
    (hfail : IS_ERR_OR_NULL (seg (nsh_gso_inner skb) (features &&& NETIF_F_SG)).1 = true)
    (hsame : (seg (nsh_gso_inner skb) (features &&& NETIF_F_SG)).2 = nsh_gso_inner skb) :
    (nsh_gso_segment seg skb features).1 = (seg (nsh_gso_inner skb) (features &&& NETIF_F_SG)).1 ∧
    skb_bytes (nsh_gso_segment seg skb features).2 = skb_bytes skb ∧
    (nsh_gso_segment seg skb features).2.data = skb.data ∧
    (nsh_gso_segment seg skb features).2.protocol = htons ETH_P_NSH ∧
    (nsh_gso_segment seg skb features).2.mac_header = skb.mac_header ∧
    (nsh_gso_segment seg skb features).2.network_header =
      (skb.mac_header + skb.mac_len) % 65536 ∧
    (nsh_gso_segment seg skb features).2.mac_len = skb.mac_len ∧
    (nsh_gso_segment seg skb features).2.ip_summed = skb.ip_summed ∧
    (nsh_gso_segment seg skb features).2.csum = skb.csum ∧
    (nsh_gso_segment seg skb features).2.csum_start = skb.csum_start ∧
    (nsh_gso_segment seg skb features).2.transport_header = skb.data ∧
    (nsh_gso_segment seg skb features).2.encapsulation = true := by
  rw [nsh_gso_segment_checked seg skb features hwf hd h8 hF hp]
  simp only [hfail, if_true, hsame]
  obtain ⟨i1, i2, i3, i4, i5, i6, i7, i8, i9, i10, i11, i12, i13⟩ :=
    nsh_gso_inner_fields skb hwf hd h8 hF
  generalize nsh_gso_inner skb = X at *
  generalize nsh_hdr_len (skb_bytes skb) = F at *
  have hmo : u16 ((X.network_header : Int) - ((skb.data : Int) - skb.mac_header)) =
      skb.mac_header := by
    rw [i6]; unfold u16; omega
  simp only [skb_gso_error_unwind, skb_reset_transport_header, skb_push, hmo, u16_natCast]
  refine ⟨trivial, ?_, by omega, trivial, trivial, ?_, trivial, i10, i11, i12, ?_, trivial⟩
  · simp only [skb_bytes, skb_data]
    rw [show X.data - F = skb.data by omega]
    exact i3
  · rw [← Nat.cast_add, u16_natCast]
  · rw [show X.data - F = skb.data by omega]
    omega

/-- When the delegate returns an error or null, `nsh_gso_segment` returns the
very pointer the delegate returned. -/
theorem nsh_gso_segment_failed_ptr (seg : sk_buff → Nat → segs_ptr × sk_buff) (skb : sk_buff)
    (features : Nat) (hwf : skb.data ≤ skb.head.length) (hd : skb.data < 65536)
    (h8 : NSH_BASE_HDR_LEN ≤ skb_len skb)
    (hF : nsh_hdr_len (skb_bytes skb) ≤ skb_len skb)
    (hp : tun_p_to_eth_p (nsh_np (skb_bytes skb)) ≠ 0)
    (hfail : IS_ERR_OR_NULL (seg (nsh_gso_inner skb) (features &&& NETIF_F_SG)).1 = true) :
    (nsh_gso_segment seg skb features).1 =
      (seg (nsh_gso_inner skb) (features &&& NETIF_F_SG)).1 := by
  rw [nsh_gso_segment_checked seg skb features hwf hd h8 hF hp]
  simp only [hfail, if_true]

theorem chunks_fuel_flatten (M : Nat) (hM : 0 < M) :
    ∀ (fuel : Nat) (l : List Nat), l.length ≤ fuel → (chunks_fuel M fuel l).flatten = l := by
  intro fuel
  induction fuel with
  | zero =>
    intro l hl
    have : l = [] := List.length_eq_zero.mp (by omega)
    simp [chunks_fuel, this]
  | succ n ih =>
    intro l hl
    unfold chunks_fuel
    by_cases hnil : l = []
    · simp [hnil]
    · have hpos : 0 < l.length := List.length_pos.mpr hnil
      simp only [hnil, if_false, List.flatten_cons]
      rw [ih (l.drop M) (by simp; omega), List.take_append_drop]

theorem chunks_fuel_length (M : Nat) (hM : 0 < M) :
    ∀ (fuel : Nat) (l : List Nat), l.length ≤ fuel →
      (chunks_fuel M fuel l).length = (l.length + M - 1) / M := by
  intro fuel
  induction fuel with
  | zero =>
    intro l hl
    have : l = [] := List.length_eq_zero.mp (by omega)
    subst this
    simp only [chunks_fuel, List.length_nil]
    rw [Nat.zero_add, Nat.div_eq_of_lt (by omega)]
  | succ n ih =>
    intro l hl
    unfold chunks_fuel
    by_cases hnil : l = []
    · subst hnil
      simp only [if_true, List.length_nil]
      rw [Nat.zero_add, Nat.div_eq_of_lt (by omega)]
    · have hpos : 0 < l.length := List.length_pos.mpr hnil
      simp only [hnil, if_false, List.length_cons]
      rw [ih (l.drop M) (by simp; omega), List.length_drop]
      by_cases hlt : l.length < M
      · rw [show l.length - M + M - 1 = M - 1 by omega, Nat.div_eq_of_lt (by omega)]
        rw [Nat.zero_add]
        exact (Nat.div_eq_of_lt_le (by omega) (by omega)).symm
      · rw [show l.length + M - 1 = (l.length - M + M - 1) + M by omega,
          Nat.add_div_right _ hM]

theorem chunks_flatten (M : Nat) (hM : 0 < M) (l : List Nat) : (chunks M l).flatten = l :=
  chunks_fuel_flatten M hM l.length l (Nat.le_refl _)

theorem chunks_length (M : Nat) (hM : 0 < M) (l : List Nat) :
    (chunks M l).length = (l.length + M - 1) / M :=
  chunks_fuel_length M hM l.length l (Nat.le_refl _)

/-- What the loop of `nsh_gso_segment` does to the storage of a fragment. -/
theorem nsh_gso_fixup_frame (n : Nat) (nhoff : Int) (mac_len : Nat) (fr : sk_buff) :
    (nsh_gso_fixup n nhoff mac_len fr).data = fr.data - n ∧
    (nsh_gso_fixup n nhoff mac_len fr).head = fr.head ∧
    (nsh_gso_fixup n nhoff mac_len fr).frags = fr.frags := by
  simp [nsh_gso_fixup, skb_set_mac_header, skb_reset_mac_header, __skb_push]

/-- A fragment that carries a copy `H` of a well-formed header in front of its
`data` pops, after the loop of `nsh_gso_segment`, back to itself. -/
theorem nsh_gso_fixup_pop (nhoff : Int) (mac_len : Nat) (fr : sk_buff) (H : List Nat)
    (h8 : NSH_BASE_HDR_LEN ≤ H.length) (hlen : nsh_hdr_len H = H.length)
    (hp : tun_p_to_eth_p (nsh_np H) ≠ 0)
    (hfd : H.length ≤ fr.data) (hwf : fr.data ≤ fr.head.length)
    (hcopy : (fr.head.drop (fr.data - H.length)).take H.length = H) :
    (ovs_nsh_pop (nsh_gso_fixup H.length nhoff mac_len fr)).1 = 0 ∧
    (ovs_nsh_pop (nsh_gso_fixup H.length nhoff mac_len fr)).2.protocol =
      tun_p_to_eth_p (nsh_np H) ∧
    skb_bytes (ovs_nsh_pop (nsh_gso_fixup H.length nhoff mac_len fr)).2 = skb_bytes fr := by
  obtain ⟨gd, gh, gf⟩ := nsh_gso_fixup_frame H.length nhoff mac_len fr
  generalize nsh_gso_fixup H.length nhoff mac_len fr = g at *
  have hwfg : g.data ≤ g.head.length := by rw [gd, gh]; omega
  have hbytes : skb_bytes g = H ++ skb_bytes fr := by
    simp only [skb_bytes, skb_data, gd, gh, gf]
    have hsplit := List.take_append_drop H.length (fr.head.drop (fr.data - H.length))
    rw [hcopy, List.drop_drop, show fr.data - H.length + H.length = fr.data by omega] at hsplit
    rw [← hsplit, List.append_assoc]
  have h4 : 4 ≤ H.length := by unfold NSH_BASE_HDR_LEN at h8; omega
  obtain ⟨a1, a2⟩ := nsh_fields_append H (skb_bytes fr) h4
  have hF : nsh_hdr_len (skb_bytes g) = H.length := by rw [hbytes, a1, hlen]
  have hnp : nsh_np (skb_bytes g) = nsh_np H := by rw [hbytes, a2]
  have hl : skb_len g = H.length + skb_len fr := by
    rw [skb_len_eq, skb_len_eq, hbytes, List.length_append]
  have hpop : (ovs_nsh_pop g).1 = 0 := by
    rw [ovs_nsh_pop_ret g hwfg, hF, hnp, hl]
    have h1 : ¬ H.length + skb_len fr < NSH_BASE_HDR_LEN := by omega
    have h2 : ¬ H.length + skb_len fr < H.length := by omega
    simp only [h1, h2, hp, if_false]
  obtain ⟨_, k2, k3, _⟩ := ovs_nsh_pop_ok_fields g hwfg hpop
  refine ⟨hpop, by rw [k3, hnp], ?_⟩
  rw [k2, hF, hbytes, List.drop_left]

/-- Segmentation with a delegate that splits correctly: the fragments that
`nsh_gso_segment` returns, their number, and what popping them gives. -/
theorem nsh_gso_segment_split (seg : sk_buff → Nat → segs_ptr × sk_buff) (skb : sk_buff)
    (features M : Nat) (frs : List sk_buff)
    (hwf : skb.data ≤ skb.head.length) (hd : skb.data < 65536)
    (hF8 : NSH_BASE_HDR_LEN ≤ nsh_hdr_len (skb_bytes skb))
    (hS : nsh_hdr_len (skb_bytes skb) < skb_len skb)
    (hp : tun_p_to_eth_p (nsh_np (skb_bytes skb)) ≠ 0)
    (hM : 0 < M)
    (hok : (seg (nsh_gso_inner skb) (features &&& NETIF_F_SG)).1 = Except.ok frs)
    (hsplit : is_link_split M (nsh_hdr_len (skb_bytes skb)) (nsh_gso_inner skb) frs) :
    (nsh_gso_segment seg skb features).1 =
      Except.ok (frs.map (nsh_gso_fixup (nsh_hdr_len (skb_bytes skb))
        ((skb.data : Int) - skb.mac_header) skb.mac_len)) ∧
    frs.length = (skb_len skb - nsh_hdr_len (skb_bytes skb) + M - 1) / M ∧
    (ovs_nsh_pop skb).1 = 0 ∧
    (∀ fr ∈ frs,
      (ovs_nsh_pop (nsh_gso_fixup (nsh_hdr_len (skb_bytes skb))
        ((skb.data : Int) - skb.mac_header) skb.mac_len fr)).1 = 0 ∧
      (ovs_nsh_pop (nsh_gso_fixup (nsh_hdr_len (skb_bytes skb))
        ((skb.data : Int) - skb.mac_header) skb.mac_len fr)).2.protocol =
        (ovs_nsh_pop skb).2.protocol ∧
      skb_bytes (ovs_nsh_pop (nsh_gso_fixup (nsh_hdr_len (skb_bytes skb))
        ((skb.data : Int) - skb.mac_header) skb.mac_len fr)).2 = skb_bytes fr) ∧
    (frs.map skb_bytes).flatten = (skb_bytes skb).drop (nsh_hdr_len (skb_bytes skb)) := by
  have h8 : NSH_BASE_HDR_LEN ≤ skb_len skb := by omega
  have hF : nsh_hdr_len (skb_bytes skb) ≤ skb_len skb := by omega
  obtain ⟨i1, i2, i3, i4, _⟩ := nsh_gso_inner_fields skb hwf hd h8 hF
  obtain ⟨hs1, hs2⟩ := hsplit
  have hXlen : (skb_bytes (nsh_gso_inner skb)).length =
      skb_len skb - nsh_hdr_len (skb_bytes skb) := by
    rw [i4, List.length_drop, ← skb_len_eq]
  have hcount : frs.length = (skb_len skb - nsh_hdr_len (skb_bytes skb) + M - 1) / M := by
    rw [← hXlen, ← chunks_length M hM, ← hs1, List.length_map]
  have hne : IS_ERR_OR_NULL (seg (nsh_gso_inner skb) (features &&& NETIF_F_SG)).1 = false := by
    rw [hok]
    cases frs with
    | nil =>
      have hpos : 0 < (skb_len skb - nsh_hdr_len (skb_bytes skb) + M - 1) / M :=
        Nat.div_pos (by omega) hM
      simp at hcount
      omega
    | cons a l => rfl
  have hpopskb : (ovs_nsh_pop skb).1 = 0 := by
    rw [ovs_nsh_pop_ret skb hwf]
    have h1 : ¬ skb_len skb < NSH_BASE_HDR_LEN := by omega
    have h2 : ¬ skb_len skb < nsh_hdr_len (skb_bytes skb) := by omega
    simp only [h1, h2, hp, if_false]
  obtain ⟨_, _, kproto, _⟩ := ovs_nsh_pop_ok_fields skb hwf hpopskb
  refine ⟨?_, hcount, hpopskb, ?_, ?_⟩
  · rw [nsh_gso_segment_checked seg skb features hwf hd h8 hF hp]
    rw [hok] at hne
    simp only [hok, hne, Bool.false_eq_true, if_false]
    rfl
  · intro fr hfr
    obtain ⟨f1, f2, f3⟩ := hs2 fr hfr
    have hFl : nsh_hdr_len (skb_bytes skb) ≤ (skb_bytes skb).length := by
      rw [← skb_len_eq]; exact hF
    have hHl : ((skb_bytes skb).take (nsh_hdr_len (skb_bytes skb))).length =
        nsh_hdr_len (skb_bytes skb) := by
      rw [List.length_take]; omega
    have h4 : 4 ≤ ((skb_bytes skb).take (nsh_hdr_len (skb_bytes skb))).length := by
      rw [hHl]; unfold NSH_BASE_HDR_LEN at hF8; omega
    obtain ⟨a1, a2⟩ := nsh_fields_append ((skb_bytes skb).take (nsh_hdr_len (skb_bytes skb)))
      ((skb_bytes skb).drop (nsh_hdr_len (skb_bytes skb))) h4
    rw [List.take_append_drop] at a1 a2
    have hlin : nsh_hdr_len (skb_bytes skb) ≤ (List.drop skb.data (nsh_gso_inner skb).head).length := by
      rw [List.length_drop]; omega
    have hcopy : (fr.head.drop (fr.data - nsh_hdr_len (skb_bytes skb))).take
        (nsh_hdr_len (skb_bytes skb)) =
        (skb_bytes skb).take (nsh_hdr_len (skb_bytes skb)) := by
      have ht := @List.take_append_of_le_length _ (List.drop skb.data (nsh_gso_inner skb).head)
        (nsh_gso_inner skb).frags _ hlin
      rw [i3] at ht
      rw [f3, i1, show skb.data + nsh_hdr_len (skb_bytes skb) - nsh_hdr_len (skb_bytes skb)
        = skb.data by omega, ht]
    have key := nsh_gso_fixup_pop ((skb.data : Int) - skb.mac_header) skb.mac_len fr
      ((skb_bytes skb).take (nsh_hdr_len (skb_bytes skb)))
      (by rw [hHl]; exact hF8) (by rw [hHl]; exact a1.symm) (by rw [← a2]; exact hp)
      (by rw [hHl]; exact f1) f2 (by rw [hHl]; exact hcopy)
    rw [hHl, ← a2] at key
    exact ⟨key.1, by rw [key.2.1, kproto], key.2.2⟩
  · rw [hs1, chunks_flatten M hM, i4]

/-- The reference splitter returns what a correct link-layer splitter returns. -/
theorem link_split_is_link_split (M hlen features : Nat) (inner : sk_buff)
    (h1 : hlen ≤ inner.data) (h2 : inner.data ≤ inner.head.length) :
    (link_split M inner features).1 =
      Except.ok ((chunks M (skb_bytes inner)).map (link_split_frag inner)) ∧
    is_link_split M hlen inner ((chunks M (skb_bytes inner)).map (link_split_frag inner)) := by
  have hl : (List.take inner.data inner.head).length = inner.data := by simp [h2]
  refine ⟨rfl, ?_, ?_⟩
  · rw [List.map_map]
    have : ∀ c ∈ chunks M (skb_bytes inner), (skb_bytes ∘ link_split_frag inner) c = id c := by
      intro c _
      simp only [Function.comp, skb_bytes, skb_data, id, link_split_frag]
      rw [List.drop_left' hl]
      simp
    rw [List.map_congr_left this, List.map_id]
  · intro fr hfr
    obtain ⟨c, _, rfl⟩ := List.mem_map.mp hfr
    refine ⟨h1, by simp [link_split_frag, hl], ?_⟩
    simp only [link_split_frag]
    have hl2 : hlen ≤ (List.drop (inner.data - hlen) (List.take inner.data inner.head)).length := by
      rw [List.length_drop, hl]; omega
    rw [List.drop_append_of_le_length (by rw [hl]; omega), List.take_append_of_le_length hl2,
      List.drop_take, show inner.data - (inner.data - hlen) = hlen by omega, List.take_take,
      Nat.min_self]

theorem skb_frame_len (payload : List Nat) (protocol mac_len : Nat) :
    skb_len (skb_frame 0 payload protocol mac_len) = payload.length := by
  simp [skb_frame, skb_zero, skb_len, skb_headlen]

theorem skb_frame_bytes (payload : List Nat) (protocol mac_len : Nat) :
    skb_bytes (skb_frame 0 payload protocol mac_len) = payload := by
  simp [skb_frame, skb_zero, skb_bytes, skb_data]

theorem nsh_big_skb_len : skb_len nsh_big_skb = 3008 := by
  unfold nsh_big_skb
  rw [skb_frame_len, List.length_append, List.length_replicate]
  rfl

theorem nsh_big_skb_hdr_len : nsh_hdr_len (skb_bytes nsh_big_skb) = 8 := by
  decide

theorem nsh_big_skb_payload :
    (skb_bytes nsh_big_skb).drop 8 = List.replicate 3000 0x55 := by
  unfold nsh_big_skb
  rw [skb_frame_bytes]
  exact List.drop_left' rfl

/-- A failed `pskb_may_pull` leaves the buffer as it was. -/
theorem pskb_may_pull_fail (skb : sk_buff) (n : Nat) (h : (pskb_may_pull skb n).1 = false) :
    (pskb_may_pull skb n).2 = skb := by
  unfold pskb_may_pull at h ⊢
  split_ifs at h ⊢
  rfl

/-- The buffer an early exit of `nsh_gso_segment` leaves: the input with the
network marker reset and the header pulled as far as the checks got. -/
theorem nsh_gso_segment_early (seg : sk_buff → Nat → segs_ptr × sk_buff) (skb : sk_buff)
    (features : Nat) (hwf : skb.data ≤ skb.head.length) (hd : skb.data < 65536)
    (hfail : skb_len skb < NSH_BASE_HDR_LEN ∨ skb_len skb < nsh_hdr_len (skb_bytes skb) ∨
      tun_p_to_eth_p (nsh_np (skb_bytes skb)) = 0) :
    nsh_gso_segment seg skb features =
      (Except.error (-EINVAL),
        if skb_len skb < NSH_BASE_HDR_LEN then skb_reset_network_header skb
        else (pskb_may_pull (pskb_may_pull (skb_reset_network_header skb) NSH_BASE_HDR_LEN).2
          (nsh_hdr_len (skb_bytes skb))).2) := by
  by_cases h8 : skb_len skb < NSH_BASE_HDR_LEN
  · have hl0 : skb_len (skb_reset_network_header skb) = skb_len skb := rfl
    have hf : (pskb_may_pull (skb_reset_network_header skb) NSH_BASE_HDR_LEN).1 = false := by
      rw [pskb_may_pull_fst, hl0]; simpa using h8
    simp only [nsh_gso_segment, hf, if_true, h8, pskb_may_pull_fail _ _ hf]
  · have h8' : NSH_BASE_HDR_LEN ≤ skb_len skb := by omega
    obtain ⟨c1, c2, c3, c4⟩ := nsh_gso_checks skb hwf hd h8'
    by_cases hF : skb_len skb < nsh_hdr_len (skb_bytes skb)
    · have c3' : (pskb_may_pull (pskb_may_pull (skb_reset_network_header skb)
          NSH_BASE_HDR_LEN).2 (nsh_hdr_len (skb_bytes skb))).1 = false := by
        rw [c3]; simpa using hF
      simp only [nsh_gso_segment, c1, c2, c3', h8, if_true, if_false, Bool.true_eq_false]
    · have hp : tun_p_to_eth_p (nsh_np (skb_bytes skb)) = 0 := by
        rcases hfail with h | h | h
        · exact absurd h h8
        · exact absurd h hF
        · exact h
      have c3' : (pskb_may_pull (pskb_may_pull (skb_reset_network_header skb)
          NSH_BASE_HDR_LEN).2 (nsh_hdr_len (skb_bytes skb))).1 = true := by
        rw [c3]; simpa using hF
      simp only [nsh_gso_segment, c1, c2, c3', c4, hp, h8, if_true, if_false,
        Bool.true_eq_false]

/-- What two pulls after the reset of the network marker leave alone. -/
theorem nsh_gso_early_frame (skb : sk_buff) (n m : Nat) (hwf : skb.data ≤ skb.head.length) :
    skb_bytes (pskb_may_pull (pskb_may_pull (skb_reset_network_header skb) n).2 m).2 =
      skb_bytes skb ∧
    (pskb_may_pull (pskb_may_pull (skb_reset_network_header skb) n).2 m).2.data = skb.data ∧
    (pskb_may_pull (pskb_may_pull (skb_reset_network_header skb) n).2 m).2.protocol =
      skb.protocol ∧
    (pskb_may_pull (pskb_may_pull (skb_reset_network_header skb) n).2 m).2.mac_header =
      skb.mac_header ∧
    (pskb_may_pull (pskb_may_pull (skb_reset_network_header skb) n).2 m).2.mac_len =
      skb.mac_len ∧
    (pskb_may_pull (pskb_may_pull (skb_reset_network_header skb) n).2 m).2.network_header =
      skb.data % 65536 ∧
    (pskb_may_pull (pskb_may_pull (skb_reset_network_header skb) n).2 m).2.transport_header =
      skb.transport_header ∧
    (pskb_may_pull (pskb_may_pull (skb_reset_network_header skb) n).2 m).2.ip_summed =
      skb.ip_summed ∧
    (pskb_may_pull (pskb_may_pull (skb_reset_network_header skb) n).2 m).2.csum = skb.csum ∧
    (pskb_may_pull (pskb_may_pull (skb_reset_network_header skb) n).2 m).2.csum_start =
      skb.csum_start ∧
    (pskb_may_pull (pskb_may_pull (skb_reset_network_header skb) n).2 m).2.encapsulation =
      skb.encapsulation := by
  have hwf0 : (skb_reset_network_header skb).data ≤ (skb_reset_network_header skb).head.length :=
    hwf
  have hwf1 := pskb_may_pull_wf _ n hwf0
  have hb1 := pskb_may_pull_bytes _ n hwf0
  have hb2 := pskb_may_pull_bytes _ m hwf1
  obtain ⟨a1, a2, a3, a4, a5, a6, a7, a8, a9, a10⟩ :=
    pskb_may_pull_frame (skb_reset_network_header skb) n
  obtain ⟨b1, b2, b3, b4, b5, b6, b7, b8, b9, b10⟩ :=
    pskb_may_pull_frame (pskb_may_pull (skb_reset_network_header skb) n).2 m
  refine ⟨by rw [hb2, hb1]; rfl, by rw [b1, a1]; rfl, by rw [b6, a6]; rfl, by rw [b2, a2]; rfl,
    by rw [b5, a5]; rfl, ?_, by rw [b4, a4]; rfl, by rw [b7, a7]; rfl, by rw [b8, a8]; rfl,
    by rw [b9, a9]; rfl, by rw [b10, a10]; rfl⟩
  rw [b3, a3]
  simp only [skb_reset_network_header, u16_natCast]

/-- On a buffer without paged data `pskb_may_pull` changes nothing. -/
theorem pskb_may_pull_linear (skb : sk_buff) (n : Nat) (h : skb.frags = []) :
    (pskb_may_pull skb n).2 = skb := by
  unfold pskb_may_pull skb_len
  split_ifs with h1 h2
  · rfl
  · rfl
  · rw [h] at h2
    simp only [List.length_nil, Nat.add_zero] at h2
    omega

/-- Frame of an early exit of `nsh_gso_segment`: the result does not depend on
the delegate, the pointer is `ERR_PTR(-EINVAL)`, and the buffer is the input
with the network marker at the front. -/
theorem nsh_gso_segment_early_frame (seg : sk_buff → Nat → segs_ptr × sk_buff) (skb : sk_buff)
    (features : Nat) (hwf : skb.data ≤ skb.head.length) (hd : skb.data < 65536)
    (hfail : skb_len skb < NSH_BASE_HDR_LEN ∨ skb_len skb < nsh_hdr_len (skb_bytes skb) ∨
      tun_p_to_eth_p (nsh_np (skb_bytes skb)) = 0) :
    (nsh_gso_segment seg skb features).1 = Except.error (-EINVAL) ∧
    skb_bytes (nsh_gso_segment seg skb features).2 = skb_bytes skb ∧
    (nsh_gso_segment seg skb features).2.data = skb.data ∧
    (nsh_gso_segment seg skb features).2.protocol = skb.protocol ∧
    (nsh_gso_segment seg skb features).2.mac_header = skb.mac_header ∧
    (nsh_gso_segment seg skb features).2.mac_len = skb.mac_len ∧
    (nsh_gso_segment seg skb features).2.network_header = skb.data ∧
    (nsh_gso_segment seg skb features).2.transport_header = skb.transport_header ∧
    (nsh_gso_segment seg skb features).2.ip_summed = skb.ip_summed ∧
    (nsh_gso_segment seg skb features).2.csum = skb.csum ∧
    (nsh_gso_segment seg skb features).2.csum_start = skb.csum_start ∧
    (nsh_gso_segment seg skb features).2.encapsulation = skb.encapsulation ∧
    (skb.frags = [] →
      (nsh_gso_segment seg skb features).2 = { skb with network_header := skb.data }) := by
  rw [nsh_gso_segment_early seg skb features hwf hd hfail]
  have hmod : skb.data % 65536 = skb.data := Nat.mod_eq_of_lt hd
  have hreset : skb_reset_network_header skb = { skb with network_header := skb.data } := by
    simp only [skb_reset_network_header, u16_natCast, hmod]
  by_cases h8 : skb_len skb < NSH_BASE_HDR_LEN
  · simp only [h8, if_true]
    refine ⟨trivial, rfl, rfl, rfl, rfl, rfl, ?_, rfl, rfl, rfl, rfl, rfl, fun _ => hreset⟩
    rw [hreset]
  · simp only [h8, if_false]
    obtain ⟨f1, f2, f3, f4, f5, f6, f7, f8, f9, f10, f11⟩ :=
      nsh_gso_early_frame skb NSH_BASE_HDR_LEN (nsh_hdr_len (skb_bytes skb)) hwf
    refine ⟨trivial, f1, f2, f3, f4, f5, by rw [f6, hmod], f7, f8, f9, f10, f11, fun hfr => ?_⟩
    have h0 : (skb_reset_network_header skb).frags = [] := hfr
    rw [pskb_may_pull_linear _ _ (by rw [pskb_may_pull_linear _ _ h0]; exact h0),
      pskb_may_pull_linear _ _ h0, hreset]

/-- The checks that make `ovs_nsh_pop` fail. -/
theorem ovs_nsh_pop_fail_iff (skb : sk_buff) (hwf : skb.data ≤ skb.head.length) :
    (ovs_nsh_pop skb).1 ≠ 0 ↔
      (skb_len skb < NSH_BASE_HDR_LEN ∨ skb_len skb < nsh_hdr_len (skb_bytes skb) ∨
        tun_p_to_eth_p (nsh_np (skb_bytes skb)) = 0) := by
  rw [ovs_nsh_pop_ret skb hwf]
  have hne : (-ENOMEM : Int) ≠ 0 := by decide
  have hne2 : (-EAFNOSUPPORT : Int) ≠ 0 := by decide
  split_ifs with h1 h2 h3
  · exact ⟨fun _ => Or.inl h1, fun _ => hne⟩
  · exact ⟨fun _ => Or.inr (Or.inl h2), fun _ => hne⟩
  · exact ⟨fun _ => Or.inr (Or.inr h3), fun _ => hne2⟩
  · constructor
    · intro h; exact absurd rfl h
    · rintro (h | h | h)
      · exact absurd h h1
      · exact absurd h h2
      · exact absurd h h3

/-- The bits of a mask restricted to scatter-gather. -/
theorem netif_f_sg_bits (features i : Nat) :
    (features &&& NETIF_F_SG).testBit i = (decide (i = 0) && features.testBit 0) := by
  have h1 : NETIF_F_SG = 2 ^ 0 := rfl
  rw [Nat.testBit_and, h1, Nat.testBit_two_pow]
  by_cases hi : i = 0
  · subst hi; simp
  · have : ¬ (0 = i) := fun h => hi h.symm
    simp [hi, this]

/-- A failing `ovs_nsh_push` hands the buffer back as it received it. -/
theorem ovs_nsh_push_fail (gfp_ok : Bool) (skb : sk_buff) (t : List Nat)
    (h : (ovs_nsh_push gfp_ok skb t).1 ≠ 0) : (ovs_nsh_push gfp_ok skb t).2 = skb := by
  have hr := ovs_nsh_push_ret gfp_ok skb t
  by_cases h1 : skb.mac_len = 0 ∧ tun_p_from_eth_p skb.protocol = 0
  · have hcond : skb.mac_len = 0 ∧
        (if skb.mac_len ≠ 0 then TUN_P_ETHERNET else tun_p_from_eth_p skb.protocol) = 0 := by
      refine ⟨h1.1, ?_⟩
      simp only [h1.1, ne_eq, not_true_eq_false, if_false]
      exact h1.2
    simp only [ovs_nsh_push]
    rw [if_pos hcond]
  · have hcond : ¬ (skb.mac_len = 0 ∧
        (if skb.mac_len ≠ 0 then TUN_P_ETHERNET else tun_p_from_eth_p skb.protocol) = 0) := by
      rintro ⟨hm, hz⟩
      simp only [hm, ne_eq, not_true_eq_false, if_false] at hz
      exact h1 ⟨hm, hz⟩
    simp only [h1, if_false] at hr
    rcases skb_cow_head_ret gfp_ok skb (nsh_hdr_len t) with h0 | ⟨h0, hsame⟩
    · rw [h0] at hr
      simp only [lt_self_iff_false, if_false] at hr
      exact absurd hr h
    · have hlt : (skb_cow_head gfp_ok skb (nsh_hdr_len t)).1 < 0 := by rw [h0]; decide
      simp only [ovs_nsh_push]
      rw [if_neg hcond, if_pos hlt]
      exact hsame

/-- What two pulls leave alone. -/
theorem pskb_may_pull_twice_frame (skb : sk_buff) (n m : Nat) (hwf : skb.data ≤ skb.head.length) :
    skb_bytes (pskb_may_pull (pskb_may_pull skb n).2 m).2 = skb_bytes skb ∧
    (pskb_may_pull (pskb_may_pull skb n).2 m).2.data = skb.data ∧
    (pskb_may_pull (pskb_may_pull skb n).2 m).2.protocol = skb.protocol ∧
    (pskb_may_pull (pskb_may_pull skb n).2 m).2.mac_header = skb.mac_header ∧
    (pskb_may_pull (pskb_may_pull skb n).2 m).2.network_header = skb.network_header ∧
    (pskb_may_pull (pskb_may_pull skb n).2 m).2.mac_len = skb.mac_len ∧
    (pskb_may_pull (pskb_may_pull skb n).2 m).2.ip_summed = skb.ip_summed ∧
    (pskb_may_pull (pskb_may_pull skb n).2 m).2.csum = skb.csum ∧
    (pskb_may_pull (pskb_may_pull skb n).2 m).2.csum_start = skb.csum_start := by
  have hwf1 := pskb_may_pull_wf skb n hwf
  have hb1 := pskb_may_pull_bytes skb n hwf
  have hb2 := pskb_may_pull_bytes _ m hwf1
  obtain ⟨a1, a2, a3, _, a5, a6, a7, a8, a9, _⟩ := pskb_may_pull_frame skb n
  obtain ⟨b1, b2, b3, _, b5, b6, b7, b8, b9, _⟩ :=
    pskb_may_pull_frame (pskb_may_pull skb n).2 m
  exact ⟨by rw [hb2, hb1], by rw [b1, a1], by rw [b6, a6], by rw [b2, a2], by rw [b3, a3],
    by rw [b5, a5], by rw [b7, a7], by rw [b8, a8], by rw [b9, a9]⟩

/-- A failing `ovs_nsh_pop` leaves the packet and the fields of the buffer as
they were; only the split between linear and paged bytes may move. -/
theorem ovs_nsh_pop_fail (skb : sk_buff) (hwf : skb.data ≤ skb.head.length)
    (h : (ovs_nsh_pop skb).1 ≠ 0) :
    skb_bytes (ovs_nsh_pop skb).2 = skb_bytes skb ∧
    (ovs_nsh_pop skb).2.data = skb.data ∧
    (ovs_nsh_pop skb).2.protocol = skb.protocol ∧
    (ovs_nsh_pop skb).2.mac_header = skb.mac_header ∧
    (ovs_nsh_pop skb).2.network_header = skb.network_header ∧
    (ovs_nsh_pop skb).2.mac_len = skb.mac_len ∧
    (ovs_nsh_pop skb).2.ip_summed = skb.ip_summed ∧
    (ovs_nsh_pop skb).2.csum = skb.csum ∧
    (ovs_nsh_pop skb).2.csum_start = skb.csum_start := by
  have key : (ovs_nsh_pop skb).2 = skb ∨ ∃ m, (ovs_nsh_pop skb).2 =
      (pskb_may_pull (pskb_may_pull skb NSH_BASE_HDR_LEN).2 m).2 := by
    by_cases h1 : (pskb_may_pull skb NSH_BASE_HDR_LEN).1 = false
    · left
      simp only [ovs_nsh_pop, h1, if_true]
      exact pskb_may_pull_fail _ _ h1
    · right
      refine ⟨nsh_hdr_len (skb_data (pskb_may_pull skb NSH_BASE_HDR_LEN).2), ?_⟩
      by_cases h2 : (pskb_may_pull (pskb_may_pull skb NSH_BASE_HDR_LEN).2
          (nsh_hdr_len (skb_data (pskb_may_pull skb NSH_BASE_HDR_LEN).2))).1 = false
      · simp only [ovs_nsh_pop, h1, h2, if_true, if_false, Bool.true_eq_false]
      · by_cases h3 : tun_p_to_eth_p (nsh_np (skb_data (pskb_may_pull skb NSH_BASE_HDR_LEN).2)) = 0
        · simp only [ovs_nsh_pop, h1, h2, h3, if_true, if_false, Bool.true_eq_false]
        · exfalso
          apply h
          simp only [ovs_nsh_pop, h1, h2, h3, if_false, Bool.true_eq_false]
  rcases key with hk | ⟨m, hk⟩
  · rw [hk]
    exact ⟨rfl, rfl, rfl, rfl, rfl, rfl, rfl, rfl, rfl⟩
  · rw [hk]
    exact pskb_may_pull_twice_frame skb NSH_BASE_HDR_LEN m hwf

/-- A template whose length field is not zero is at least 4 bytes long. -/
theorem nsh_hdr_len_pos (t : List Nat) (h : nsh_hdr_len t ≠ 0) : 4 ≤ nsh_hdr_len t := by
  rw [nsh_hdr_len_eq] at h ⊢
  omega

/-- With a template of at least 4 bytes the push leaves the bytes of the packet
behind the header as they were, and the next-protocol store lands at offset 3
of the header. -/
theorem ovs_nsh_push_tail (gfp_ok : Bool) (skb : sk_buff) (t : List Nat)
    (hwf : skb.data ≤ skb.head.length) (h : (ovs_nsh_push gfp_ok skb t).1 = 0)
    (h4 : 4 ≤ nsh_hdr_len t) :
    skb_bytes (ovs_nsh_push gfp_ok skb t).2 =
      (memcpy_src t (nsh_hdr_len t)).set 3 (push_next_proto skb) ++ skb_bytes skb ∧
    (skb_bytes (ovs_nsh_push gfp_ok skb t).2).drop (nsh_hdr_len t) = skb_bytes skb ∧
    nsh_np (skb_bytes (ovs_nsh_push gfp_ok skb t).2) = push_next_proto skb := by
  have hb := ovs_nsh_push_bytes gfp_ok skb t hwf h
  have hTl := memcpy_src_length t (nsh_hdr_len t)
  have hsl : ((memcpy_src t (nsh_hdr_len t)).set 3 (push_next_proto skb)).length =
      nsh_hdr_len t := by rw [List.length_set, hTl]
  have hb' : skb_bytes (ovs_nsh_push gfp_ok skb t).2 =
      (memcpy_src t (nsh_hdr_len t)).set 3 (push_next_proto skb) ++ skb_bytes skb := by
    rw [hb, List.set_append_left _ _ (by omega), List.append_assoc]
    rfl
  refine ⟨hb', by rw [hb', List.drop_left' hsl], ?_⟩
  rw [hb', (nsh_fields_append _ (skb_bytes skb) (by omega)).2]
  unfold nsh_np
  rw [List.getD_eq_getElem _ _ (by omega)]
  simp

/-- The delegate is only ever applied to `nsh_gso_inner`. -/
theorem nsh_gso_segment_inner_only (seg : sk_buff → Nat → segs_ptr × sk_buff) (skb : sk_buff)
    (features : Nat) (hwf : skb.data ≤ skb.head.length) (hd : skb.data < 65536)
    (h8 : NSH_BASE_HDR_LEN ≤ skb_len skb)
    (hF : nsh_hdr_len (skb_bytes skb) ≤ skb_len skb)
    (hp : tun_p_to_eth_p (nsh_np (skb_bytes skb)) ≠ 0) :
    nsh_gso_segment seg skb features =
      nsh_gso_segment (fun _ m => seg (nsh_gso_inner skb) m) skb features := by
  rw [nsh_gso_segment_checked seg skb features hwf hd h8 hF hp,
    nsh_gso_segment_checked (fun _ m => seg (nsh_gso_inner skb) m) skb features hwf hd h8 hF hp]

/-- Truncating a summand before a 16-bit store does not change the stored value. -/
theorem u16_u16_add (a : Nat) (b : Int) : u16 ((u16 (a : Int) : Int) + b) = u16 ((a : Int) + b) := by
  unfold u16
  omega

/-- A 16-bit field holds a value below 65536. -/
theorem u16_lt (z : Int) : u16 z < 65536 := by
  unfold u16
  omega

/-- The fields that the loop of `nsh_gso_segment` gives a fragment. -/
theorem nsh_gso_fixup_fields (n : Nat) (nhoff : Int) (mac_len : Nat) (fr : sk_buff) :
    (nsh_gso_fixup n nhoff mac_len fr).protocol = htons ETH_P_NSH ∧
    (nsh_gso_fixup n nhoff mac_len fr).data = fr.data - n ∧
    (nsh_gso_fixup n nhoff mac_len fr).mac_header =
      u16 (((nsh_gso_fixup n nhoff mac_len fr).data : Int) - nhoff) ∧
    (nsh_gso_fixup n nhoff mac_len fr).mac_len = mac_len ∧
    (nsh_gso_fixup n nhoff mac_len fr).network_header =
      ((nsh_gso_fixup n nhoff mac_len fr).mac_header +
        (nsh_gso_fixup n nhoff mac_len fr).mac_len) % 65536 := by
  simp only [nsh_gso_fixup, skb_set_mac_header, skb_reset_mac_header, __skb_push]
  refine ⟨trivial, trivial, ?_, trivial, ?_⟩
  · rw [u16_u16_add, Int.sub_eq_add_neg]
  · rw [← Nat.cast_add, u16_natCast]

/-- A successful `nsh_gso_segment` returns the fragments of the delegate, each
passed through the loop. -/
theorem nsh_gso_segment_ok (seg : sk_buff → Nat → segs_ptr × sk_buff) (skb : sk_buff)
    (features : Nat) (out : List sk_buff) (hwf : skb.data ≤ skb.head.length)
    (hd : skb.data < 65536)
    (hres : (nsh_gso_segment seg skb features).1 = Except.ok out) :
    ∃ frs, (seg (nsh_gso_inner skb) (features &&& NETIF_F_SG)).1 = Except.ok frs ∧
      out = frs.map (nsh_gso_fixup (nsh_hdr_len (skb_bytes skb))
        ((skb.data : Int) - skb.mac_header) skb.mac_len) := by
  by_cases hfail : skb_len skb < NSH_BASE_HDR_LEN ∨
      skb_len skb < nsh_hdr_len (skb_bytes skb) ∨ tun_p_to_eth_p (nsh_np (skb_bytes skb)) = 0
  · rw [(nsh_gso_segment_early_frame seg skb features hwf hd hfail).1] at hres
    exact absurd hres (by simp)
  · have h8 : NSH_BASE_HDR_LEN ≤ skb_len skb := by
      by_contra h; exact hfail (Or.inl (by omega))
    have hF : nsh_hdr_len (skb_bytes skb) ≤ skb_len skb := by
      by_contra h; exact hfail (Or.inr (Or.inl (by omega)))
    have hp : tun_p_to_eth_p (nsh_np (skb_bytes skb)) ≠ 0 :=
      fun h => hfail (Or.inr (Or.inr h))
    rw [nsh_gso_segment_checked seg skb features hwf hd h8 hF hp] at hres
    cases hseg : (seg (nsh_gso_inner skb) (features &&& NETIF_F_SG)).1 with
    | error e =>
      rw [hseg] at hres
      simp [IS_ERR_OR_NULL] at hres
    | ok frs =>
      rw [hseg] at hres
      cases frs with
      | nil =>
        simp only [IS_ERR_OR_NULL, if_true] at hres
        refine ⟨[], rfl, ?_⟩
        cases hres
        rfl
      | cons a l =>
        simp only [IS_ERR_OR_NULL, Bool.false_eq_true, if_false, Except.map] at hres
        refine ⟨a :: l, rfl, ?_⟩
        cases hres
        rfl

/-- The folded sum of `do_csum` fits in 16 bits. -/
theorem do_csum_le (b : List Nat) : do_csum b ≤ 65535 := by
  unfold do_csum
  simp only
  split_ifs
  · omega
  · omega

/-- Only the first `n` bytes enter `csum_partial`. -/
theorem csum_partial_take (b : List Nat) (n w : Nat) :
    csum_partial b n w = csum_partial (b.take n) n w := by
  unfold csum_partial
  rw [List.take_take, Nat.min_self]

/-- On a zero seed `csum_partial` is the folded sum of the bytes. -/
theorem csum_partial_zero (b : List Nat) (n : Nat) :
    csum_partial b n 0 = do_csum (b.take n) := by
  have h := do_csum_le (b.take n)
  unfold csum_partial u32
  simp only [Nat.add_zero]
  rw [Nat.mod_eq_of_lt (by omega)]
  simp

/-- Adding a partial sum and subtracting it again gives back a 32-bit checksum,
except that 0 comes back as the other ones-complement zero. -/
theorem csum_add_sub (b : List Nat) (n c : Nat) (hc : c < 4294967296) :
    csum_sub ( csum_partial b n c) ( csum_partial b n 0) =
      if c = 0 then 4294967295 else c := by
  have hs := do_csum_le (b.take n)
  unfold csum_sub csum_add csum_partial u32
  generalize do_csum (b.take n) = s at *
  simp only [Nat.add_zero]
  split_ifs <;> omega

/-- The checksum fields after a successful `ovs_nsh_push`. -/
theorem ovs_nsh_push_csum (gfp_ok : Bool) (skb : sk_buff) (t : List Nat)
    (hwf : skb.data ≤ skb.head.length) (h : (ovs_nsh_push gfp_ok skb t).1 = 0) :
    (ovs_nsh_push gfp_ok skb t).2.ip_summed = skb.ip_summed ∧
    (ovs_nsh_push gfp_ok skb t).2.csum =
      if skb.ip_summed = CHECKSUM_COMPLETE then
        csum_partial ((skb_bytes (ovs_nsh_push gfp_ok skb t).2).take (nsh_hdr_len t))
          (nsh_hdr_len t) skb.csum
      else skb.csum := by
  obtain ⟨_, hc, heq⟩ := ovs_nsh_push_snd gfp_ok skb t h
  obtain ⟨_, _, _, _, _, _, hi, hcs, _⟩ :=
    (skb_cow_head_spec gfp_ok skb (nsh_hdr_len t) hwf).2.2 hc
  obtain ⟨hd1, _⟩ := ovs_nsh_push_ok_fields gfp_ok skb t hwf h
  have hlen : nsh_hdr_len t ≤ (skb_data (ovs_nsh_push gfp_ok skb t).2).length := by
    rw [hd1, List.length_set, List.length_append, memcpy_src_length]
    omega
  have htake : (skb_bytes (ovs_nsh_push gfp_ok skb t).2).take (nsh_hdr_len t) =
      (skb_data (ovs_nsh_push gfp_ok skb t).2).take (nsh_hdr_len t) := by
    simp only [skb_bytes]
    rw [List.take_append_of_le_length hlen]
  rw [htake]
  have hdata : skb_data (ovs_nsh_push gfp_ok skb t).2 =
      ((memcpy (skb_cow_head gfp_ok skb (nsh_hdr_len t)).2.head
          ((skb_cow_head gfp_ok skb (nsh_hdr_len t)).2.data - nsh_hdr_len t) t
          (nsh_hdr_len t)).set
          ((skb_cow_head gfp_ok skb (nsh_hdr_len t)).2.data - nsh_hdr_len t + 3)
          (push_next_proto skb)).drop
        ((skb_cow_head gfp_ok skb (nsh_hdr_len t)).2.data - nsh_hdr_len t) := by
    rw [heq]
    obtain ⟨ph, _, pd, _⟩ := skb_postpush_rcsum_frame
      { skb_push (skb_cow_head gfp_ok skb (nsh_hdr_len t)).2 (nsh_hdr_len t) with
        head := (memcpy (skb_cow_head gfp_ok skb (nsh_hdr_len t)).2.head
          ((skb_cow_head gfp_ok skb (nsh_hdr_len t)).2.data - nsh_hdr_len t) t
          (nsh_hdr_len t)).set
          ((skb_cow_head gfp_ok skb (nsh_hdr_len t)).2.data - nsh_hdr_len t + 3)
          (push_next_proto skb) }
      (((memcpy (skb_cow_head gfp_ok skb (nsh_hdr_len t)).2.head
          ((skb_cow_head gfp_ok skb (nsh_hdr_len t)).2.data - nsh_hdr_len t) t
          (nsh_hdr_len t)).set
          ((skb_cow_head gfp_ok skb (nsh_hdr_len t)).2.data - nsh_hdr_len t + 3)
          (push_next_proto skb)).drop
        ((skb_cow_head gfp_ok skb (nsh_hdr_len t)).2.data - nsh_hdr_len t)) (nsh_hdr_len t)
    simp only [skb_data, skb_reset_mac_len, skb_reset_network_header, skb_reset_mac_header,
      ph, pd]
    simp only [skb_push]
  rw [hdata, ← csum_partial_take]
  rw [heq]
  simp only [skb_reset_mac_len, skb_reset_network_header, skb_reset_mac_header,
    skb_postpush_rcsum, skb_push, hi, hcs]
  by_cases hcomp : skb.ip_summed = CHECKSUM_COMPLETE
  · simp [hcomp, hi, hcs]
  · simp [hcomp, hi, hcs]

/-- The checksum after a successful `ovs_nsh_pop` of a checksum-complete
buffer. -/
theorem ovs_nsh_pop_csum (skb : sk_buff) (hwf : skb.data ≤ skb.head.length)
    (h : (ovs_nsh_pop skb).1 = 0) (hcomp : skb.ip_summed = CHECKSUM_COMPLETE) :
    (ovs_nsh_pop skb).2.ip_summed = CHECKSUM_COMPLETE ∧
    (ovs_nsh_pop skb).2.csum =
      csum_sub skb.csum
        ( csum_partial ((skb_bytes skb).take (nsh_hdr_len (skb_bytes skb)))
          (nsh_hdr_len (skb_bytes skb)) 0) := by
  obtain ⟨h8, hF, _, heq⟩ := ovs_nsh_pop_snd skb hwf h
  obtain ⟨b1, _, _, _, _, _, b7, b8, _⟩ :=
    pskb_may_pull_twice_frame skb NSH_BASE_HDR_LEN (nsh_hdr_len (skb_bytes skb)) hwf
  have hwf1 := pskb_may_pull_wf skb NSH_BASE_HDR_LEN hwf
  have hl1 : skb_len (pskb_may_pull skb NSH_BASE_HDR_LEN).2 = skb_len skb := by
    rw [skb_len_eq, skb_len_eq, pskb_may_pull_bytes skb _ hwf]
  have hh2 := pskb_may_pull_headlen (pskb_may_pull skb NSH_BASE_HDR_LEN).2
    (nsh_hdr_len (skb_bytes skb)) hwf1 (by omega)
  generalize (pskb_may_pull (pskb_may_pull skb NSH_BASE_HDR_LEN).2
    (nsh_hdr_len (skb_bytes skb))).2 = r2 at *
  generalize nsh_hdr_len (skb_bytes skb) = F at *
  have hlen : F ≤ (skb_data r2).length := by
    simpa [skb_data, skb_headlen] using hh2
  have htake : (skb_data r2).take F = (skb_bytes skb).take F := by
    rw [← b1]
    simp only [skb_bytes]
    rw [List.take_append_of_le_length hlen]
  rw [heq]
  simp only [skb_reset_mac_len, skb_reset_network_header, skb_reset_mac_header,
    skb_pull_rcsum, skb_postpull_rcsum, __skb_pull, b7, b8, hcomp, if_true]
  exact ⟨trivial, by rw [csum_partial_take, htake, ← csum_partial_take]⟩

/-- The code that a successful push selects decodes to a protocol. -/
theorem push_next_proto_decodes (gfp_ok : Bool) (skb : sk_buff) (t : List Nat)
    (h : (ovs_nsh_push gfp_ok skb t).1 = 0) :
    tun_p_to_eth_p (push_next_proto skb) ≠ 0 := by
  obtain ⟨hcond, _, _⟩ := ovs_nsh_push_snd gfp_ok skb t h
  unfold push_next_proto
  by_cases hm : skb.mac_len = 0
  · have hp : tun_p_from_eth_p skb.protocol ≠ 0 := fun hz => hcond ⟨hm, hz⟩
    simp only [hm, ne_eq, not_true_eq_false, if_false]
    rw [tun_p_to_from _ hp]
    intro h0
    rw [h0] at hp
    exact hp tun_p_from_eth_p_zero
  · simp only [hm, ne_eq, not_false_eq_true, if_true]
    decide

/-- After a successful push of a template of at least 4 bytes the pop
succeeds and removes exactly the header that was pushed. -/
theorem ovs_nsh_push_pop_hdr (gfp_ok : Bool) (skb : sk_buff) (t : List Nat)
    (hwf : skb.data ≤ skb.head.length) (h : (ovs_nsh_push gfp_ok skb t).1 = 0)
    (hL4 : 4 ≤ nsh_hdr_len t) (hL8 : NSH_BASE_HDR_LEN ≤ nsh_hdr_len t + skb_len skb)
    (ht : nsh_hdr_len t ≤ t.length) :
    (ovs_nsh_push gfp_ok skb t).2.data ≤ (ovs_nsh_push gfp_ok skb t).2.head.length ∧
    nsh_hdr_len (skb_bytes (ovs_nsh_push gfp_ok skb t).2) = nsh_hdr_len t ∧
    (ovs_nsh_pop (ovs_nsh_push gfp_ok skb t).2).1 = 0 := by
  obtain ⟨_, _, hwf', _⟩ := ovs_nsh_push_ok_fields gfp_ok skb t hwf h
  obtain ⟨hb, _, hnp⟩ := ovs_nsh_push_tail gfp_ok skb t hwf h hL4
  have hT := memcpy_src_eq t (nsh_hdr_len t) ht
  rw [hT] at hb
  have hsl : ((t.take (nsh_hdr_len t)).set 3 (push_next_proto skb)).length = nsh_hdr_len t := by
    rw [List.length_set, List.length_take]; omega
  obtain ⟨hw1, _⟩ := nsh_fields_written t (nsh_hdr_len t) (push_next_proto skb) hL4 ht
  obtain ⟨ha1, _⟩ := nsh_fields_append
    ((t.take (nsh_hdr_len t)).set 3 (push_next_proto skb)) (skb_bytes skb) (by omega)
  have hF : nsh_hdr_len (skb_bytes (ovs_nsh_push gfp_ok skb t).2) = nsh_hdr_len t := by
    rw [hb, ha1, hw1]
  have hlen : skb_len (ovs_nsh_push gfp_ok skb t).2 = nsh_hdr_len t + skb_len skb := by
    rw [skb_len_eq, skb_len_eq, hb, List.length_append, hsl]
  refine ⟨hwf', hF, ?_⟩
  rw [ovs_nsh_pop_ret _ hwf', hF, hnp, hlen]
  have h1 : ¬ nsh_hdr_len t + skb_len skb < NSH_BASE_HDR_LEN := by omega
  have h2 : ¬ nsh_hdr_len t + skb_len skb < nsh_hdr_len t := by omega
  simp only [h1, h2, push_next_proto_decodes gfp_ok skb t h, if_false]

/-! ## The claims -/

/-- C1 as stated fails, at three inputs with the supported protocol IPv4.
With 14 bytes of link framing the protocol after push and pop is the bridging
ethertype, not IPv4. With no headroom and a failing allocation the push does
not succeed. With a template whose length field is 0 the bytes after push and
pop are not the original bytes. -/
theorem ovs_nsh_roundtrip_fails :
    tun_p_from_eth_p (htons ETH_P_IP) ≠ 0 ∧
    (ovs_nsh_pop (ovs_nsh_push true
      (skb_frame 16 [1, 2, 3, 4, 5, 6, 7, 8, 9, 10, 11, 12, 0x08, 0x00, 0x45, 0]
        (htons ETH_P_IP) 14) nsh_base_hdr).2).2.protocol ≠ htons ETH_P_IP ∧
    (ovs_nsh_push false (skb_frame 0 [0x45, 0, 0, 20] (htons ETH_P_IP) 0) nsh_base_hdr).1 ≠ 0 ∧
    skb_bytes (ovs_nsh_pop (ovs_nsh_push true
      (skb_frame 16 [1, 2, 3, 4, 5, 6, 7, 8, 9] (htons ETH_P_IP) 0) nsh_len0_hdr).2).2 ≠
      skb_bytes (skb_frame 16 [1, 2, 3, 4, 5, 6, 7, 8, 9] (htons ETH_P_IP) 0) := by
  decide

/-- C1 (round trip), amended. Take a buffer whose declared protocol has a code
and that either carries no link framing (`mac_len` 0) or declares the bridging
ethertype, a template of at least 4 bytes that holds the bytes its length
field declares and that together with the packet makes up at least a base
header, and let the allocation succeed or not be needed. Then `ovs_nsh_push`
succeeds, the following `ovs_nsh_pop` succeeds, the declared protocol is the
original one and the packet bytes are the original bytes. -/
theorem ovs_nsh_roundtrip (gfp_ok : Bool) (skb : sk_buff) (t : List Nat)
    (hwf : skb.data ≤ skb.head.length)
    (hp : tun_p_from_eth_p skb.protocol ≠ 0)
    (hm : skb.mac_len = 0 ∨ skb.protocol = htons ETH_P_TEB)
    (hL4 : 4 ≤ nsh_hdr_len t)
    (hL8 : NSH_BASE_HDR_LEN ≤ nsh_hdr_len t + skb_len skb)
    (ht : nsh_hdr_len t ≤ t.length)
    (hg : gfp_ok = true ∨ (nsh_hdr_len t ≤ skb.data ∧ skb.cloned = false)) :
    (ovs_nsh_push gfp_ok skb t).1 = 0 ∧
    (ovs_nsh_pop (ovs_nsh_push gfp_ok skb t).2).1 = 0 ∧
    (ovs_nsh_pop (ovs_nsh_push gfp_ok skb t).2).2.protocol = skb.protocol ∧
    skb_bytes (ovs_nsh_pop (ovs_nsh_push gfp_ok skb t).2).2 = skb_bytes skb :=
  ovs_nsh_push_pop gfp_ok skb t hwf hp hm hL4 hL8 ht hg

/-- C1 at an IPv6 packet with paged bytes, no headroom and a shared head, so
that the push has to reallocate. -/
theorem ovs_nsh_roundtrip_witness :
    (ovs_nsh_pop (ovs_nsh_push true
      { skb_frame 0 [0x60, 0, 0, 0] (htons ETH_P_IPV6) 0 with
        frags := [0, 4, 59, 64], cloned := true } nsh_md_hdr).2).1 = 0 ∧
    (ovs_nsh_pop (ovs_nsh_push true
      { skb_frame 0 [0x60, 0, 0, 0] (htons ETH_P_IPV6) 0 with
        frags := [0, 4, 59, 64], cloned := true } nsh_md_hdr).2).2.protocol = htons ETH_P_IPV6 ∧
    skb_bytes (ovs_nsh_pop (ovs_nsh_push true
      { skb_frame 0 [0x60, 0, 0, 0] (htons ETH_P_IPV6) 0 with
        frags := [0, 4, 59, 64], cloned := true } nsh_md_hdr).2).2 =
      [0x60, 0, 0, 0, 0, 4, 59, 64] :=
  have h := ovs_nsh_roundtrip true
    { skb_frame 0 [0x60, 0, 0, 0] (htons ETH_P_IPV6) 0 with
      frags := [0, 4, 59, 64], cloned := true } nsh_md_hdr
    (by decide) (by decide) (by decide) (by decide) (by decide) (by decide) (by decide)
  ⟨h.2.1, h.2.2.1, h.2.2.2.trans (by decide)⟩

/-- C2 as stated fails: on a 4-byte buffer `ovs_nsh_pop` returns `-ENOMEM`,
which is the very value `ovs_nsh_push` returns when its allocation fails, so
the error is not distinct from the out-of-memory error. -/
theorem ovs_nsh_pop_truncated_is_enomem :
    (ovs_nsh_pop (skb_frame 0 [1, 2, 3, 4] (htons ETH_P_NSH) 0)).1 = -ENOMEM ∧
    (ovs_nsh_push false (skb_frame 0 [1, 2, 3, 4] (htons ETH_P_NSH) 0) nsh_base_hdr).1 =
      (ovs_nsh_pop (skb_frame 0 [1, 2, 3, 4] (htons ETH_P_NSH) 0)).1 := by
  decide

/-- C2 (truncation safety), amended. On every buffer that holds fewer bytes
than the base header length `ovs_nsh_pop` returns `-ENOMEM` and leaves every
field of the buffer as it was. -/
theorem ovs_nsh_pop_truncated (skb : sk_buff) (h : skb_len skb < NSH_BASE_HDR_LEN) :
    ovs_nsh_pop skb = (-ENOMEM, skb) := by
  have h1 : ¬ NSH_BASE_HDR_LEN ≤ skb_headlen skb := by
    unfold skb_len at h
    omega
  have h2 : NSH_BASE_HDR_LEN > skb_len skb := h
  simp [ovs_nsh_pop, pskb_may_pull, h1, h2]

/-- C2 at the 4-byte buffer of scenario B. -/
theorem ovs_nsh_pop_truncated_witness :
    ovs_nsh_pop (skb_frame 0 [1, 2, 3, 4] (htons ETH_P_NSH) 0) =
      (-ENOMEM, skb_frame 0 [1, 2, 3, 4] (htons ETH_P_NSH) 0) :=
  ovs_nsh_pop_truncated (skb_frame 0 [1, 2, 3, 4] (htons ETH_P_NSH) 0) (by decide)

/-- C3 as stated fails, at three inputs whose header passes the checks and a
delegate that fails. On a packet as `ovs_nsh_push` leaves it the buffer comes
back marked as encapsulated and with the transport marker moved, so it is not
the buffer that went in. On a buffer whose markers are 10 bytes apart while
`mac_len` is 0 the network-layer marker comes back changed. With a delegate
that clears the checksum before failing the checksum comes back cleared. -/
theorem nsh_gso_segment_rollback_inexact :
    (ovs_nsh_pop nsh_ipv4_skb).1 = 0 ∧
    (nsh_gso_segment (gso_fail (-ENOMEM)) nsh_ipv4_skb NETIF_F_SG).2 ≠ nsh_ipv4_skb ∧
    nsh_ipv4_skb.encapsulation = false ∧
    (nsh_gso_segment (gso_fail (-ENOMEM)) nsh_ipv4_skb NETIF_F_SG).2.encapsulation = true ∧
    (nsh_gso_segment (gso_fail (-ENOMEM))
      { nsh_ipv4_skb with mac_header := 14 } NETIF_F_SG).2.network_header ≠
      ({ nsh_ipv4_skb with mac_header := 14 } : sk_buff).network_header ∧
    (nsh_gso_segment gso_fail_dirty
      { nsh_ipv4_skb with csum := 7 } NETIF_F_SG).2.csum ≠ 7 := by
  decide

/-- C3 (rollback), amended. Take a buffer that declares `ETH_P_NSH`, passes
the header checks, and satisfies the marker invariant `network_header =
mac_header + mac_len`; let the delegate return an error or the null pointer
and leave the buffer as it received it. Then after `nsh_gso_segment` the
packet bytes, the front, the declared protocol, `mac_header`,
`network_header`, `mac_len` and the checksum fields are those of the buffer
before the call. The encapsulation flag is set and the transport marker is
moved to the front. -/
theorem nsh_gso_segment_rollback (seg : sk_buff → Nat → segs_ptr × sk_buff)
    (skb : sk_buff) (features : Nat) (hwf : skb.data ≤ skb.head.length)
    (hd : skb.data < 65536) (h8 : NSH_BASE_HDR_LEN ≤ skb_len skb)
    (hF : nsh_hdr_len (skb_bytes skb) ≤ skb_len skb)
    (hp : tun_p_to_eth_p (nsh_np (skb_bytes skb)) ≠ 0)
    (hproto : skb.protocol = htons ETH_P_NSH)
    (hinv : skb.network_header = skb.mac_header + skb.mac_len)
    (hnet : skb.network_header < 65536)
    (hfail : IS_ERR_OR_NULL (seg (nsh_gso_inner skb) (features &&& NETIF_F_SG)).1 = true)
    (hsame : (seg (nsh_gso_inner skb) (features &&& NETIF_F_SG)).2 = nsh_gso_inner skb) :
    skb_bytes (nsh_gso_segment seg skb features).2 = skb_bytes skb ∧
    (nsh_gso_segment seg skb features).2.data = skb.data ∧
    (nsh_gso_segment seg skb features).2.protocol = skb.protocol ∧
    (nsh_gso_segment seg skb features).2.mac_header = skb.mac_header ∧
    (nsh_gso_segment seg skb features).2.network_header = skb.network_header ∧
    (nsh_gso_segment seg skb features).2.mac_len = skb.mac_len ∧
    (nsh_gso_segment seg skb features).2.ip_summed = skb.ip_summed ∧
    (nsh_gso_segment seg skb features).2.csum = skb.csum ∧
    (nsh_gso_segment seg skb features).2.csum_start = skb.csum_start ∧
    (nsh_gso_segment seg skb features).2.encapsulation = true ∧
    (nsh_gso_segment seg skb features).2.transport_header = skb.data := by
  obtain ⟨_, u2, u3, u4, u5, u6, u7, u8, u9, u10, u11, u12⟩ :=
    nsh_gso_segment_unwind seg skb features hwf hd h8 hF hp (by omega) hfail hsame
  refine ⟨u2, u3, by rw [u4, hproto], u5, ?_, u7, u8, u9, u10, u12, u11⟩
  rw [u6, hinv]
  omega

/-- C3 at a frame with 14 bytes of link framing in front of the NSH header and
a delegate that fails with `-ENOMEM`: the three markers come back as they were. -/
theorem nsh_gso_segment_rollback_witness :
    (nsh_gso_segment (gso_fail (-ENOMEM))
      { nsh_ipv4_skb with mac_header := 10, network_header := 24, mac_len := 14 }
      NETIF_F_SG).2.mac_header = 10 ∧
    (nsh_gso_segment (gso_fail (-ENOMEM))
      { nsh_ipv4_skb with mac_header := 10, network_header := 24, mac_len := 14 }
      NETIF_F_SG).2.network_header = 24 ∧
    (nsh_gso_segment (gso_fail (-ENOMEM))
      { nsh_ipv4_skb with mac_header := 10, network_header := 24, mac_len := 14 }
      NETIF_F_SG).2.mac_len = 14 :=
  have h := nsh_gso_segment_rollback (gso_fail (-ENOMEM))
    { nsh_ipv4_skb with mac_header := 10, network_header := 24, mac_len := 14 } NETIF_F_SG
    (by decide) (by decide) (by decide) (by decide) (by decide) (by decide) (by decide)
    (by decide) (by decide) (by decide)
  ⟨h.2.2.2.1, h.2.2.2.2.1, h.2.2.2.2.2.1⟩

/-- C4 as stated fails for a header shorter than the base header. A 4-byte
header (length field 1) in front of 5 bytes passes the header checks and pops;
split at 4 bytes by a correct splitter it gives two fragments, and
`ovs_nsh_pop` fails with `-ENOMEM` on the second, which holds 5 bytes. -/
theorem nsh_gso_segment_short_header :
    (ovs_nsh_pop nsh_short_skb).1 = 0 ∧
    is_link_split 4 4 (nsh_gso_inner nsh_short_skb)
      ((chunks 4 (skb_bytes (nsh_gso_inner nsh_short_skb))).map
        (link_split_frag (nsh_gso_inner nsh_short_skb))) ∧
    (nsh_gso_segment (link_split 4) nsh_short_skb NETIF_F_SG).1.map
        (List.map fun g => (ovs_nsh_pop g).1) = Except.ok [0, -ENOMEM] := by
  decide

/-- C4 (segmentation completeness), amended. Take a buffer whose header is at
least a base header long, passes the header checks and is followed by a
non-empty payload of `S` bytes, a maximum segment size `M > 0`, and a delegate
that returns what a correct link-layer splitter returns. Then
`nsh_gso_segment` returns a list of `(S + M - 1) / M` fragments, that is
`ceil(S / M)`; `ovs_nsh_pop` succeeds on the original and on every fragment,
with the same declared protocol; and the packets of the popped fragments,
concatenated in list order, are the payload. -/
theorem nsh_gso_segment_complete (seg : sk_buff → Nat → segs_ptr × sk_buff) (skb : sk_buff)
    (features M : Nat) (frs : List sk_buff)
    (hwf : skb.data ≤ skb.head.length) (hd : skb.data < 65536)
    (hF8 : NSH_BASE_HDR_LEN ≤ nsh_hdr_len (skb_bytes skb))
    (hS : nsh_hdr_len (skb_bytes skb) < skb_len skb)
    (hp : tun_p_to_eth_p (nsh_np (skb_bytes skb)) ≠ 0)
    (hM : 0 < M)
    (hok : (seg (nsh_gso_inner skb) (features &&& NETIF_F_SG)).1 = Except.ok frs)
    (hsplit : is_link_split M (nsh_hdr_len (skb_bytes skb)) (nsh_gso_inner skb) frs) :
    ∃ out : List sk_buff,
      (nsh_gso_segment seg skb features).1 = Except.ok out ∧
      out.length = (skb_len skb - nsh_hdr_len (skb_bytes skb) + M - 1) / M ∧
      (ovs_nsh_pop skb).1 = 0 ∧
      (∀ g ∈ out, (ovs_nsh_pop g).1 = 0 ∧
        (ovs_nsh_pop g).2.protocol = (ovs_nsh_pop skb).2.protocol) ∧
      (out.map fun g => skb_bytes (ovs_nsh_pop g).2).flatten =
        (skb_bytes skb).drop (nsh_hdr_len (skb_bytes skb)) := by
  obtain ⟨s1, s2, s3, s4, s5⟩ :=
    nsh_gso_segment_split seg skb features M frs hwf hd hF8 hS hp hM hok hsplit
  refine ⟨_, s1, by rw [List.length_map]; exact s2, s3, ?_, ?_⟩
  · intro g hg
    obtain ⟨fr, hfr, rfl⟩ := List.mem_map.mp hg
    exact ⟨(s4 fr hfr).1, (s4 fr hfr).2.1⟩
  · rw [List.map_map, ← s5]
    congr 1
    exact List.map_congr_left fun fr hfr => (s4 fr hfr).2.2

/-- C4 at scenario C: a base header in front of 3000 bytes, split at 1460 by
the reference splitter, gives 3 fragments, each of which pops to IPv4, and the
popped packets concatenate to the 3000 bytes. -/
theorem nsh_gso_segment_complete_witness :
    ∃ out : List sk_buff,
      (nsh_gso_segment (link_split 1460) nsh_big_skb NETIF_F_SG).1 = Except.ok out ∧
      out.length = 3 ∧
      (∀ g ∈ out, (ovs_nsh_pop g).1 = 0 ∧ (ovs_nsh_pop g).2.protocol = htons ETH_P_IP) ∧
      (out.map fun g => skb_bytes (ovs_nsh_pop g).2).flatten = List.replicate 3000 0x55 := by
  have hwf : nsh_big_skb.data ≤ nsh_big_skb.head.length := Nat.zero_le _
  have hd : nsh_big_skb.data < 65536 := by decide
  have hF8 : NSH_BASE_HDR_LEN ≤ nsh_hdr_len (skb_bytes nsh_big_skb) := by decide
  have hS : nsh_hdr_len (skb_bytes nsh_big_skb) < skb_len nsh_big_skb := by
    rw [nsh_big_skb_len, nsh_big_skb_hdr_len]; decide
  have hp : tun_p_to_eth_p (nsh_np (skb_bytes nsh_big_skb)) ≠ 0 := by decide
  obtain ⟨i1, i2, _⟩ := nsh_gso_inner_fields nsh_big_skb hwf hd
    (by rw [nsh_big_skb_len]; decide) (Nat.le_of_lt hS)
  obtain ⟨hok, hsplit⟩ := link_split_is_link_split 1460 (nsh_hdr_len (skb_bytes nsh_big_skb))
    (NETIF_F_SG &&& NETIF_F_SG) (nsh_gso_inner nsh_big_skb) (by omega) i2
  obtain ⟨out, o1, o2, o3, o4, o5⟩ := nsh_gso_segment_complete (link_split 1460) nsh_big_skb
    NETIF_F_SG 1460 _ hwf hd hF8 hS hp (by decide) hok hsplit
  have hproto : (ovs_nsh_pop nsh_big_skb).2.protocol = htons ETH_P_IP := by
    rw [(ovs_nsh_pop_ok_fields nsh_big_skb hwf o3).2.2.1]; decide
  refine ⟨out, o1, ?_, ?_, ?_⟩
  · rw [o2, nsh_big_skb_len, nsh_big_skb_hdr_len]
  · intro g hg
    exact ⟨(o4 g hg).1, by rw [(o4 g hg).2, hproto]⟩
  · rw [o5, nsh_big_skb_hdr_len, nsh_big_skb_payload]

/-- C5 (mapping bijectivity). On their supported subsets the two directions of
the table are mutually inverse: a code that decodes to a non-zero identifier
encodes back to itself, an identifier that encodes to a non-zero code decodes
back to itself; and each direction maps some input to 0 (code 6, and the ARP
ethertype 0x0806). -/
theorem tun_p_mapping_bijective :
    (∀ c : Nat, tun_p_to_eth_p c ≠ 0 → tun_p_from_eth_p (tun_p_to_eth_p c) = c) ∧
    (∀ p : Nat, tun_p_from_eth_p p ≠ 0 → tun_p_to_eth_p (tun_p_from_eth_p p) = p) ∧
    tun_p_to_eth_p 6 = 0 ∧ tun_p_from_eth_p (htons 0x0806) = 0 :=
  ⟨tun_p_from_to, tun_p_to_from, by decide, by decide⟩

/-- C5 at concrete inputs: the code of Ethernet and the identifier of IPv6. -/
theorem tun_p_mapping_bijective_witness :
    tun_p_from_eth_p (tun_p_to_eth_p TUN_P_ETHERNET) = TUN_P_ETHERNET ∧
    tun_p_to_eth_p (tun_p_from_eth_p (htons ETH_P_IPV6)) = htons ETH_P_IPV6 :=
  ⟨tun_p_mapping_bijective.1 TUN_P_ETHERNET (by decide),
   tun_p_mapping_bijective.2.1 (htons ETH_P_IPV6) (by decide)⟩

/-- C6 (push postcondition). When `ovs_nsh_push` succeeds with a template that
holds the `L` bytes its length field declares: the packet is exactly `L` bytes
longer, its first `L` bytes are the first `L` bytes of the template with the
byte at offset 3 replaced by the chosen next-protocol code, the declared
protocol is `ETH_P_NSH` in network order, the link-layer and network-layer
markers hold the offset of the new front (as 16-bit fields) and `mac_len` is 0. -/
theorem ovs_nsh_push_postcondition (gfp_ok : Bool) (skb : sk_buff) (t : List Nat)
    (hwf : skb.data ≤ skb.head.length) (ht : nsh_hdr_len t ≤ t.length)
    (h : (ovs_nsh_push gfp_ok skb t).1 = 0) :
    skb_len (ovs_nsh_push gfp_ok skb t).2 = skb_len skb + nsh_hdr_len t ∧
    (skb_bytes (ovs_nsh_push gfp_ok skb t).2).take (nsh_hdr_len t) =
      (t.take (nsh_hdr_len t)).set 3 (push_next_proto skb) ∧
    (ovs_nsh_push gfp_ok skb t).2.protocol = htons ETH_P_NSH ∧
    (ovs_nsh_push gfp_ok skb t).2.mac_header = (ovs_nsh_push gfp_ok skb t).2.data % 65536 ∧
    (ovs_nsh_push gfp_ok skb t).2.network_header =
      (ovs_nsh_push gfp_ok skb t).2.data % 65536 ∧
    (ovs_nsh_push gfp_ok skb t).2.mac_len = 0 := by
  obtain ⟨_, _, _, h4, h5, h6, h7⟩ := ovs_nsh_push_ok_fields gfp_ok skb t hwf h
  have hb := ovs_nsh_push_bytes gfp_ok skb t hwf h
  have hT := memcpy_src_eq t (nsh_hdr_len t) ht
  have hTl := memcpy_src_length t (nsh_hdr_len t)
  refine ⟨?_, ?_, h4, h5, h6, h7⟩
  · rw [skb_len_eq, skb_len_eq, hb]
    simp only [skb_bytes, List.length_append, List.length_set, hTl]
    omega
  · rw [hb, List.take_append_of_le_length (by simp [hTl]), List.set_take,
      List.take_left' hTl, hT]

/-- C6 at scenario A: a base header pushed onto a frame with 14 bytes of link
framing makes the packet 8 bytes longer and writes the Ethernet code. -/
theorem ovs_nsh_push_postcondition_witness :
    skb_len (ovs_nsh_push true
      (skb_frame 16 [1, 2, 3, 4, 5, 6, 7, 8, 9, 10, 11, 12, 0x08, 0x00, 0x45, 0]
        (htons ETH_P_IP) 14) nsh_base_hdr).2 = 16 + 8 ∧
    (skb_bytes (ovs_nsh_push true
      (skb_frame 16 [1, 2, 3, 4, 5, 6, 7, 8, 9, 10, 11, 12, 0x08, 0x00, 0x45, 0]
        (htons ETH_P_IP) 14) nsh_base_hdr).2).take 8 =
      [0x0f, 0x02, 0x02, TUN_P_ETHERNET, 0x00, 0x00, 0x01, 0xff] :=
  have h := ovs_nsh_push_postcondition true
    (skb_frame 16 [1, 2, 3, 4, 5, 6, 7, 8, 9, 10, 11, 12, 0x08, 0x00, 0x45, 0]
      (htons ETH_P_IP) 14) nsh_base_hdr (by decide) (by decide) (by decide)
  ⟨h.1.trans (by decide), h.2.1.trans (by decide)⟩

/-- C7 (next-protocol selection). `ovs_nsh_push` returns `-EAFNOSUPPORT`
exactly when `mac_len` is 0 and the declared protocol has no code. When it
succeeds and the byte at offset 3 of the new front lies in the linear part
(always so for a template of 4 bytes or more), that byte is `TUN_P_ETHERNET`
if `mac_len` is not 0, whatever the declared protocol and the template say,
and the code of the declared protocol if `mac_len` is 0. -/
theorem ovs_nsh_push_next_proto (gfp_ok : Bool) (skb : sk_buff) (t : List Nat) :
    ((ovs_nsh_push gfp_ok skb t).1 = -EAFNOSUPPORT ↔
      (skb.mac_len = 0 ∧ tun_p_from_eth_p skb.protocol = 0)) ∧
    (skb.data ≤ skb.head.length → (ovs_nsh_push gfp_ok skb t).1 = 0 →
      4 ≤ nsh_hdr_len t + skb_headlen skb →
      nsh_np (skb_data (ovs_nsh_push gfp_ok skb t).2) =
        (if skb.mac_len ≠ 0 then TUN_P_ETHERNET else tun_p_from_eth_p skb.protocol)) := by
  constructor
  · rw [ovs_nsh_push_ret]
    have hne : (-ENOMEM : Int) ≠ -EAFNOSUPPORT := by decide
    have hne2 : (0 : Int) ≠ -EAFNOSUPPORT := by decide
    constructor
    · intro h
      split_ifs at h with h1 h2
      · exact h1
      · exact absurd h hne
      · exact absurd h hne2
    · intro h
      simp [h]
  · intro hwf h h4
    obtain ⟨h1, _⟩ := ovs_nsh_push_ok_fields gfp_ok skb t hwf h
    have hTl := memcpy_src_length t (nsh_hdr_len t)
    have hlen : 3 < (memcpy_src t (nsh_hdr_len t) ++ skb_data skb).length := by
      simp only [List.length_append, hTl, skb_data, List.length_drop]
      simp only [skb_headlen] at h4
      omega
    rw [h1]
    unfold nsh_np
    rw [List.getD_eq_getElem _ _ (by simpa using hlen)]
    simp [push_next_proto]

/-- C7 at a frame with link framing and an unsupported declared protocol (ARP):
the push succeeds and writes the Ethernet code over the template's own code. -/
theorem ovs_nsh_push_next_proto_witness :
    tun_p_from_eth_p (htons 0x0806) = 0 ∧
    nsh_np (skb_data (ovs_nsh_push true
      (skb_frame 16 [1, 2, 3, 4, 5, 6, 7, 8, 9, 10, 11, 12, 0x08, 0x06, 0, 1]
        (htons 0x0806) 14) nsh_md_hdr).2) = TUN_P_ETHERNET :=
  ⟨by decide,
   ((ovs_nsh_push_next_proto true
      (skb_frame 16 [1, 2, 3, 4, 5, 6, 7, 8, 9, 10, 11, 12, 0x08, 0x06, 0, 1]
        (htons 0x0806) 14) nsh_md_hdr).2 (by decide) (by decide) (by decide)).trans
      (by decide)⟩

/-- C8 (pop postcondition). When `ovs_nsh_pop` succeeds, with `F` the length
that the length field of the header at the front encodes: the packet had at
least `F` bytes, the bytes left are the original ones without the first `F`,
the front moved forward by `F`, the declared protocol is the decoding of the
next-protocol byte of the removed header, the link-layer and network-layer
markers hold the offset of the new front (as 16-bit fields) and `mac_len` is 0. -/
theorem ovs_nsh_pop_postcondition (skb : sk_buff) (hwf : skb.data ≤ skb.head.length)
    (h : (ovs_nsh_pop skb).1 = 0) :
    nsh_hdr_len (skb_bytes skb) ≤ (skb_bytes skb).length ∧
    skb_bytes (ovs_nsh_pop skb).2 = (skb_bytes skb).drop (nsh_hdr_len (skb_bytes skb)) ∧
    (ovs_nsh_pop skb).2.data = skb.data + nsh_hdr_len (skb_bytes skb) ∧
    (ovs_nsh_pop skb).2.protocol = tun_p_to_eth_p (nsh_np (skb_bytes skb)) ∧
    (ovs_nsh_pop skb).2.mac_header = (ovs_nsh_pop skb).2.data % 65536 ∧
    (ovs_nsh_pop skb).2.network_header = (ovs_nsh_pop skb).2.data % 65536 ∧
    (ovs_nsh_pop skb).2.mac_len = 0 := by
  obtain ⟨h1, h2, h3, h4, _, h6, h7, h8⟩ := ovs_nsh_pop_ok_fields skb hwf h
  exact ⟨h1, h2, h4, h3, h6, h7, h8⟩

/-- C8 at a packet whose header is 12 bytes long and announces IPv4. -/
theorem ovs_nsh_pop_postcondition_witness :
    skb_bytes (ovs_nsh_pop
      (skb_frame 4 ([0x0f, 0x03, 0x02, 0x01, 0, 0, 1, 255, 9, 9, 9, 9] ++ [0x45, 0, 0, 20])
        (htons ETH_P_NSH) 0)).2 = [0x45, 0, 0, 20] ∧
    (ovs_nsh_pop
      (skb_frame 4 ([0x0f, 0x03, 0x02, 0x01, 0, 0, 1, 255, 9, 9, 9, 9] ++ [0x45, 0, 0, 20])
        (htons ETH_P_NSH) 0)).2.protocol = htons ETH_P_IP :=
  have h := ovs_nsh_pop_postcondition
    (skb_frame 4 ([0x0f, 0x03, 0x02, 0x01, 0, 0, 1, 255, 9, 9, 9, 9] ++ [0x45, 0, 0, 20])
      (htons ETH_P_NSH) 0) (by decide) (by decide)
  ⟨h.2.1.trans (by decide), h.2.2.2.1.trans (by decide)⟩

/-- C9 (pop failure characterisation). On a buffer that holds at least the
base header length: if it holds fewer bytes than the header's length field
declares, `ovs_nsh_pop` returns `-ENOMEM`, the code's value for the truncated
case, whatever the next-protocol code is; otherwise, if the next-protocol code
has no mapping it returns `-EAFNOSUPPORT`; otherwise it returns 0. -/
theorem ovs_nsh_pop_failures (skb : sk_buff) (hwf : skb.data ≤ skb.head.length)
    (h8 : NSH_BASE_HDR_LEN ≤ skb_len skb) :
    (skb_len skb < nsh_hdr_len (skb_bytes skb) → (ovs_nsh_pop skb).1 = -ENOMEM) ∧
    (nsh_hdr_len (skb_bytes skb) ≤ skb_len skb →
      tun_p_to_eth_p (nsh_np (skb_bytes skb)) = 0 → (ovs_nsh_pop skb).1 = -EAFNOSUPPORT) ∧
    (nsh_hdr_len (skb_bytes skb) ≤ skb_len skb →
      tun_p_to_eth_p (nsh_np (skb_bytes skb)) ≠ 0 → (ovs_nsh_pop skb).1 = 0) := by
  have hr := ovs_nsh_pop_ret skb hwf
  have h8' : ¬ skb_len skb < NSH_BASE_HDR_LEN := by omega
  refine ⟨fun hF => ?_, fun hF hp => ?_, fun hF hp => ?_⟩
  · rw [hr]; simp [h8', hF]
  · have hF' : ¬ skb_len skb < nsh_hdr_len (skb_bytes skb) := by omega
    rw [hr]; simp [h8', hF', hp]
  · have hF' : ¬ skb_len skb < nsh_hdr_len (skb_bytes skb) := by omega
    rw [hr]; simp [h8', hF', hp]

/-- C9 at a 9-byte packet whose header declares 12 bytes and carries the
unknown next-protocol code 9: both conditions hold and the result is `-ENOMEM`. -/
theorem ovs_nsh_pop_failures_witness :
    tun_p_to_eth_p (nsh_np [0x0f, 0x03, 0x02, 0x09, 0, 0, 1, 255, 7]) = 0 ∧
    (ovs_nsh_pop (skb_frame 0 [0x0f, 0x03, 0x02, 0x09, 0, 0, 1, 255, 7]
      (htons ETH_P_NSH) 0)).1 = -ENOMEM :=
  ⟨by decide,
   (ovs_nsh_pop_failures (skb_frame 0 [0x0f, 0x03, 0x02, 0x09, 0, 0, 1, 255, 7]
      (htons ETH_P_NSH) 0) (by decide) (by decide)).1 (by decide)⟩

/-- C10 as stated fails: when the delegate returns the null pointer on an
encapsulated packet whose header passes the checks, `nsh_gso_segment` returns
the null pointer (the empty list), which is not an error value; and when the
delegate fails with `-ENOMEM` the value returned is that same `-ENOMEM`. -/
theorem nsh_gso_segment_returns_null :
    (ovs_nsh_pop nsh_ipv4_skb).1 = 0 ∧
    (nsh_gso_segment gso_null nsh_ipv4_skb NETIF_F_SG).1 = Except.ok [] ∧
    (nsh_gso_segment (gso_fail (-ENOMEM)) nsh_ipv4_skb NETIF_F_SG).1 = Except.error (-ENOMEM) := by
  decide

/-- C10 (segmentation failure result), amended. On a buffer that passes the
header checks, when the delegate returns an error or the null pointer,
`nsh_gso_segment` returns exactly what the delegate returned: the delegate's
own error value, or the null pointer; so it never returns a non-empty list. -/
theorem nsh_gso_segment_failure_result (seg : sk_buff → Nat → segs_ptr × sk_buff)
    (skb : sk_buff) (features : Nat) (hwf : skb.data ≤ skb.head.length)
    (hd : skb.data < 65536) (h8 : NSH_BASE_HDR_LEN ≤ skb_len skb)
    (hF : nsh_hdr_len (skb_bytes skb) ≤ skb_len skb)
    (hp : tun_p_to_eth_p (nsh_np (skb_bytes skb)) ≠ 0)
    (hfail : IS_ERR_OR_NULL (seg (nsh_gso_inner skb) (features &&& NETIF_F_SG)).1 = true) :
    (nsh_gso_segment seg skb features).1 =
      (seg (nsh_gso_inner skb) (features &&& NETIF_F_SG)).1 ∧
    IS_ERR_OR_NULL (nsh_gso_segment seg skb features).1 = true := by
  have h := nsh_gso_segment_failed_ptr seg skb features hwf hd h8 hF hp hfail
  exact ⟨h, by rw [h]; exact hfail⟩

/-- C10 at an encapsulated IPv4 packet and a delegate that fails with `-ENOMEM`. -/
theorem nsh_gso_segment_failure_result_witness :
    (nsh_gso_segment (gso_fail (-ENOMEM)) nsh_ipv4_skb NETIF_F_SG).1 =
      (gso_fail (-ENOMEM) (nsh_gso_inner nsh_ipv4_skb) (NETIF_F_SG &&& NETIF_F_SG)).1 :=
  (nsh_gso_segment_failure_result (gso_fail (-ENOMEM)) nsh_ipv4_skb NETIF_F_SG
    (by decide) (by decide) (by decide) (by decide) (by decide) (by decide)).1

/-- C11 as stated fails. On a 4-byte buffer `ovs_nsh_pop` returns `-ENOMEM` and
on a packet with the unknown next-protocol code 9 it returns `-EAFNOSUPPORT`;
`nsh_gso_segment` returns `ERR_PTR(-EINVAL)` on both. -/
theorem nsh_gso_segment_early_einval :
    (ovs_nsh_pop (skb_frame 0 [1, 2, 3, 4] (htons ETH_P_NSH) 0)).1 = -ENOMEM ∧
    (nsh_gso_segment gso_null (skb_frame 0 [1, 2, 3, 4] (htons ETH_P_NSH) 0) NETIF_F_SG).1 =
      Except.error (-EINVAL) ∧
    (ovs_nsh_pop (skb_frame 0 [0x0f, 0x02, 0x02, 0x09, 0, 0, 1, 255, 7]
      (htons ETH_P_NSH) 0)).1 = -EAFNOSUPPORT ∧
    (nsh_gso_segment gso_null (skb_frame 0 [0x0f, 0x02, 0x02, 0x09, 0, 0, 1, 255, 7]
      (htons ETH_P_NSH) 0) NETIF_F_SG).1 = Except.error (-EINVAL) := by
  decide

/-- C11 (early failures of segmentation), amended. On every buffer on which
`ovs_nsh_pop` fails, `nsh_gso_segment` returns `ERR_PTR(-EINVAL)`, whichever
check failed, and the delegate is not invoked: the pointer and the buffer are
the same for any two delegates. -/
theorem nsh_gso_segment_early_failure (seg seg2 : sk_buff → Nat → segs_ptr × sk_buff)
    (skb : sk_buff) (features : Nat) (hwf : skb.data ≤ skb.head.length)
    (hd : skb.data < 65536) (hpop : (ovs_nsh_pop skb).1 ≠ 0) :
    (nsh_gso_segment seg skb features).1 = Except.error (-EINVAL) ∧
    nsh_gso_segment seg skb features = nsh_gso_segment seg2 skb features := by
  have hfail := (ovs_nsh_pop_fail_iff skb hwf).mp hpop
  constructor
  · exact (nsh_gso_segment_early_frame seg skb features hwf hd hfail).1
  · rw [nsh_gso_segment_early seg skb features hwf hd hfail,
      nsh_gso_segment_early seg2 skb features hwf hd hfail]

/-- C11 at a 9-byte packet whose header declares 12 bytes, with a delegate
that would report the mask it is handed. -/
theorem nsh_gso_segment_early_failure_witness :
    (nsh_gso_segment gso_probe (skb_frame 0 [0x0f, 0x03, 0x02, 0x01, 0, 0, 1, 255, 7]
      (htons ETH_P_NSH) 0) NETIF_F_SG).1 = Except.error (-EINVAL) :=
  (nsh_gso_segment_early_failure gso_probe gso_null
    (skb_frame 0 [0x0f, 0x03, 0x02, 0x01, 0, 0, 1, 255, 7] (htons ETH_P_NSH) 0) NETIF_F_SG
    (by decide) (by decide) (by decide)).1

/-- C12 (capability restriction). Whatever mask `nsh_gso_segment` is given, the
delegate only ever sees that mask intersected with `NETIF_F_SG`: replacing the
delegate by one that is handed this intersection directly changes nothing.
The intersection has no bit other than bit 0, the scatter-gather bit, and has
that bit exactly when the given mask has it. On a buffer that pops, a
delegate that reports the mask it is handed reports the intersection. -/
theorem nsh_gso_segment_features (seg : sk_buff → Nat → segs_ptr × sk_buff) (skb : sk_buff)
    (features : Nat) :
    nsh_gso_segment seg skb features =
      nsh_gso_segment (fun b _ => seg b (features &&& NETIF_F_SG)) skb features ∧
    (∀ i : Nat, (features &&& NETIF_F_SG).testBit i =
      (decide (i = 0) && features.testBit 0)) ∧
    (skb.data ≤ skb.head.length → skb.data < 65536 → (ovs_nsh_pop skb).1 = 0 →
      (nsh_gso_segment gso_probe skb features).1 =
        Except.error ((features &&& NETIF_F_SG : Nat) : Int)) := by
  refine ⟨rfl, netif_f_sg_bits features, fun hwf hd hpop => ?_⟩
  obtain ⟨h8, hF, hp, _⟩ := ovs_nsh_pop_snd skb hwf hpop
  rw [nsh_gso_segment_failed_ptr gso_probe skb features hwf hd h8 hF hp rfl]
  rfl

/-- C12 at the mask 0b1011 (scatter-gather and two other capabilities) and at
the mask 0b1010 (no scatter-gather): the delegate is handed 1 and 0. -/
theorem nsh_gso_segment_features_witness :
    (nsh_gso_segment gso_probe nsh_ipv4_skb 0b1011).1 = Except.error 1 ∧
    (nsh_gso_segment gso_probe nsh_ipv4_skb 0b1010).1 = Except.error 0 :=
  ⟨((nsh_gso_segment_features gso_probe nsh_ipv4_skb 0b1011).2.2
      (by decide) (by decide) (by decide)).trans (by decide),
   ((nsh_gso_segment_features gso_probe nsh_ipv4_skb 0b1010).2.2
      (by decide) (by decide) (by decide)).trans (by decide)⟩

/-- C13 (fragment bookkeeping). When `nsh_gso_segment` returns a list, the
delegate returned a list of the same length and every fragment of the result
is the delegate's fragment with: the declared protocol `ETH_P_NSH`, the front
moved back by the header length, `mac_header` equal to the new front minus
`nhoff` (as a 16-bit field), `mac_len` equal to the original `mac_len`, and
`network_header` equal to `mac_header + mac_len` (as a 16-bit field). Hence,
when that sum stays within 16 bits, `network_header >= mac_header` and
`mac_len = network_header - mac_header`. -/
theorem nsh_gso_segment_fragments (seg : sk_buff → Nat → segs_ptr × sk_buff) (skb : sk_buff)
    (features : Nat) (out : List sk_buff) (hwf : skb.data ≤ skb.head.length)
    (hd : skb.data < 65536)
    (hres : (nsh_gso_segment seg skb features).1 = Except.ok out) :
    ∃ frs, (seg (nsh_gso_inner skb) (features &&& NETIF_F_SG)).1 = Except.ok frs ∧
      List.Forall₂ (fun fr g =>
        g.protocol = htons ETH_P_NSH ∧
        g.data = fr.data - nsh_hdr_len (skb_bytes skb) ∧
        g.mac_header = u16 ((g.data : Int) - ((skb.data : Int) - skb.mac_header)) ∧
        g.mac_len = skb.mac_len ∧
        g.network_header = (g.mac_header + g.mac_len) % 65536 ∧
        (g.mac_header + g.mac_len < 65536 →
          g.mac_header ≤ g.network_header ∧ g.mac_len = g.network_header - g.mac_header))
        frs out := by
  obtain ⟨frs, hseg, hout⟩ := nsh_gso_segment_ok seg skb features out hwf hd hres
  refine ⟨frs, hseg, ?_⟩
  rw [hout, List.forall₂_map_right_iff, List.forall₂_same]
  intro fr _
  obtain ⟨f1, f2, f3, f4, f5⟩ := nsh_gso_fixup_fields (nsh_hdr_len (skb_bytes skb))
    ((skb.data : Int) - skb.mac_header) skb.mac_len fr
  refine ⟨f1, f2, f3, f4, f5, fun hlt => ?_⟩
  rw [f5, Nat.mod_eq_of_lt hlt]
  omega

/-- C13 at a packet behind 14 bytes of link framing split at 8 bytes: three
fragments, each with the link-layer marker 14 bytes before its front and the
network marker at its front. -/
theorem nsh_gso_segment_fragments_witness :
    (∃ frs, (link_split 8 (nsh_gso_inner nsh_framed_skb) (NETIF_F_SG &&& NETIF_F_SG)).1 =
        Except.ok frs ∧
      List.Forall₂ (fun fr g =>
        g.protocol = htons ETH_P_NSH ∧
        g.data = fr.data - nsh_hdr_len (skb_bytes nsh_framed_skb) ∧
        g.mac_header =
          u16 ((g.data : Int) - ((nsh_framed_skb.data : Int) - nsh_framed_skb.mac_header)) ∧
        g.mac_len = nsh_framed_skb.mac_len ∧
        g.network_header = (g.mac_header + g.mac_len) % 65536 ∧
        (g.mac_header + g.mac_len < 65536 →
          g.mac_header ≤ g.network_header ∧ g.mac_len = g.network_header - g.mac_header))
        frs nsh_framed_segs) ∧
    nsh_framed_segs.map (fun g => (g.data, g.mac_header, g.network_header, g.mac_len)) =
      [(24, 10, 24, 14), (24, 10, 24, 14), (24, 10, 24, 14)] :=
  ⟨nsh_gso_segment_fragments (link_split 8) nsh_framed_skb NETIF_F_SG nsh_framed_segs
    (by decide) (by decide) (by decide), by decide⟩

/-- C14 as stated fails. On an encapsulated IPv4 packet in checksum-complete
state the buffer handed to the delegate has its network marker at the removed
header (offset 24) and its checksum untouched, while `ovs_nsh_pop` leaves the
marker at the new front (offset 32), `mac_len` 0 and an adjusted checksum. -/
theorem nsh_gso_inner_differs_from_pop :
    (ovs_nsh_pop nsh_ipv4_complete_skb).1 = 0 ∧
    (nsh_gso_inner nsh_ipv4_complete_skb).network_header = 24 ∧
    (ovs_nsh_pop nsh_ipv4_complete_skb).2.network_header = 32 ∧
    (nsh_gso_inner nsh_ipv4_complete_skb).mac_len ≠
      (ovs_nsh_pop nsh_ipv4_complete_skb).2.mac_len ∧
    (nsh_gso_inner nsh_ipv4_complete_skb).csum = 0x1234 ∧
    (ovs_nsh_pop nsh_ipv4_complete_skb).2.csum ≠ 0x1234 := by
  decide

/-- C14 (the pop inside segmentation), amended. On every buffer on which
`ovs_nsh_pop` succeeds, the delegate is applied to `nsh_gso_inner` only, and
that buffer agrees with the one `ovs_nsh_pop` produces in its packet bytes, its
front, its declared protocol and its `mac_header`. Its `network_header` stays
at the removed header, the old front, and its checksum fields are those of
the buffer before the call. -/
theorem nsh_gso_inner_vs_pop (seg : sk_buff → Nat → segs_ptr × sk_buff) (skb : sk_buff)
    (features : Nat) (hwf : skb.data ≤ skb.head.length) (hd : skb.data < 65536)
    (hpop : (ovs_nsh_pop skb).1 = 0) :
    nsh_gso_segment seg skb features =
      nsh_gso_segment (fun _ m => seg (nsh_gso_inner skb) m) skb features ∧
    skb_bytes (nsh_gso_inner skb) = skb_bytes (ovs_nsh_pop skb).2 ∧
    (nsh_gso_inner skb).data = (ovs_nsh_pop skb).2.data ∧
    (nsh_gso_inner skb).protocol = (ovs_nsh_pop skb).2.protocol ∧
    (nsh_gso_inner skb).mac_header = (ovs_nsh_pop skb).2.mac_header ∧
    (nsh_gso_inner skb).network_header = skb.data ∧
    (nsh_gso_inner skb).ip_summed = skb.ip_summed ∧
    (nsh_gso_inner skb).csum = skb.csum ∧
    (nsh_gso_inner skb).csum_start = skb.csum_start := by
  obtain ⟨h8, hF, hp, _⟩ := ovs_nsh_pop_snd skb hwf hpop
  obtain ⟨i1, _, _, i4, i5, i6, i7, _, _, i10, i11, i12, _⟩ :=
    nsh_gso_inner_fields skb hwf hd h8 hF
  obtain ⟨_, k2, k3, k4, _, k6, _, _⟩ := ovs_nsh_pop_ok_fields skb hwf hpop
  refine ⟨nsh_gso_segment_inner_only seg skb features hwf hd h8 hF hp, by rw [i4, k2],
    by rw [i1, k4], by rw [i5, k3], by rw [i7, k6, k4], i6, i10, i11, i12⟩

/-- C14 at an encapsulated IPv4 packet in checksum-complete state. -/
theorem nsh_gso_inner_vs_pop_witness :
    skb_bytes (nsh_gso_inner nsh_ipv4_complete_skb) =
      skb_bytes (ovs_nsh_pop nsh_ipv4_complete_skb).2 ∧
    (nsh_gso_inner nsh_ipv4_complete_skb).protocol = htons ETH_P_IP :=
  have h := nsh_gso_inner_vs_pop gso_null nsh_ipv4_complete_skb NETIF_F_SG
    (by decide) (by decide) (by decide)
  ⟨h.2.1, h.2.2.2.1.trans (by decide)⟩

/-- C15 as stated fails for a template whose length field is 0: the push
succeeds, no byte is added, and byte 3 of the packet, which was 4, holds the
IPv4 code 1 afterwards. -/
theorem ovs_nsh_push_len0_overwrites :
    nsh_hdr_len nsh_len0_hdr = 0 ∧
    (ovs_nsh_push true (skb_frame 16 [1, 2, 3, 4, 5, 6, 7, 8, 9] (htons ETH_P_IP) 0)
      nsh_len0_hdr).1 = 0 ∧
    (skb_bytes (ovs_nsh_push true (skb_frame 16 [1, 2, 3, 4, 5, 6, 7, 8, 9] (htons ETH_P_IP) 0)
      nsh_len0_hdr).2).drop (nsh_hdr_len nsh_len0_hdr) = [1, 2, 3, 1, 5, 6, 7, 8, 9] ∧
    skb_bytes (skb_frame 16 [1, 2, 3, 4, 5, 6, 7, 8, 9] (htons ETH_P_IP) 0) =
      [1, 2, 3, 4, 5, 6, 7, 8, 9] := by
  decide

/-- C15 (push writes only into the opened region), amended. For every buffer
and every template whose length field is not zero, so of any length from 4
bytes on, the base header length or not, on which `ovs_nsh_push` succeeds: the
bytes of the result after the first `L` are exactly the original bytes of the
packet, and the next-protocol store lands at offset 3, inside the first `L`
bytes. -/
theorem ovs_nsh_push_frame (gfp_ok : Bool) (skb : sk_buff) (t : List Nat)
    (hwf : skb.data ≤ skb.head.length) (h : (ovs_nsh_push gfp_ok skb t).1 = 0)
    (hL : nsh_hdr_len t ≠ 0) :
    (skb_bytes (ovs_nsh_push gfp_ok skb t).2).drop (nsh_hdr_len t) = skb_bytes skb ∧
    3 < nsh_hdr_len t ∧
    nsh_np (skb_bytes (ovs_nsh_push gfp_ok skb t).2) = push_next_proto skb := by
  have h4 := nsh_hdr_len_pos t hL
  obtain ⟨_, h2, h3⟩ := ovs_nsh_push_tail gfp_ok skb t hwf h h4
  exact ⟨h2, h4, h3⟩

/-- C15 at a template of 4 bytes, shorter than the base header. -/
theorem ovs_nsh_push_frame_witness :
    (skb_bytes (ovs_nsh_push true (skb_frame 16 [1, 2, 3, 4, 5, 6, 7, 8, 9] (htons ETH_P_IP) 0)
      [0x0f, 0x01, 0x02, 0x00]).2).drop 4 = [1, 2, 3, 4, 5, 6, 7, 8, 9] :=
  (ovs_nsh_push_frame true (skb_frame 16 [1, 2, 3, 4, 5, 6, 7, 8, 9] (htons ETH_P_IP) 0)
    [0x0f, 0x01, 0x02, 0x00] (by decide) (by decide) (by decide)).1.trans (by decide)

/-- C16 as stated fails in its last part: on a checksum-complete buffer whose
checksum is 0, the push gives a non-zero checksum and the following pop gives
0xFFFFFFFF, the other ones-complement zero, not the 0 from before the push. -/
theorem ovs_nsh_csum_zero_not_restored :
    ipv4_complete_zero_skb.csum = 0 ∧
    (ovs_nsh_pop (ovs_nsh_push true ipv4_complete_zero_skb nsh_base_hdr).2).1 = 0 ∧
    (ovs_nsh_pop (ovs_nsh_push true ipv4_complete_zero_skb nsh_base_hdr).2).2.csum =
      0xFFFFFFFF := by
  decide

/-- C16 (incremental checksum), amended. On a checksum-complete buffer a
successful `ovs_nsh_push` sets the checksum to the old checksum plus the
ones-complement sum of the first `L` bytes of the result, the header as
written, and a successful `ovs_nsh_pop` sets it to the old checksum minus the
sum of the first `F` bytes, the header it removes; nothing else enters. After
a push of a template of at least 4 bytes followed by a pop the checksum is
the one before the push when that was not 0, and 0xFFFFFFFF when it was 0:
the same value in ones-complement arithmetic, that is modulo 2^32 - 1. -/
theorem ovs_nsh_incremental_csum (gfp_ok : Bool) (skb : sk_buff) (t : List Nat)
    (hwf : skb.data ≤ skb.head.length) (hcomp : skb.ip_summed = CHECKSUM_COMPLETE) :
    ((ovs_nsh_push gfp_ok skb t).1 = 0 →
      (ovs_nsh_push gfp_ok skb t).2.ip_summed = CHECKSUM_COMPLETE ∧
      (ovs_nsh_push gfp_ok skb t).2.csum =
        csum_partial ((skb_bytes (ovs_nsh_push gfp_ok skb t).2).take (nsh_hdr_len t))
          (nsh_hdr_len t) skb.csum) ∧
    ((ovs_nsh_pop skb).1 = 0 →
      (ovs_nsh_pop skb).2.ip_summed = CHECKSUM_COMPLETE ∧
      (ovs_nsh_pop skb).2.csum =
        csum_sub skb.csum
          ( csum_partial ((skb_bytes skb).take (nsh_hdr_len (skb_bytes skb)))
            (nsh_hdr_len (skb_bytes skb)) 0)) ∧
    ((ovs_nsh_push gfp_ok skb t).1 = 0 → 4 ≤ nsh_hdr_len t →
      NSH_BASE_HDR_LEN ≤ nsh_hdr_len t + skb_len skb → nsh_hdr_len t ≤ t.length →
      skb.csum < 4294967296 →
      (ovs_nsh_pop (ovs_nsh_push gfp_ok skb t).2).1 = 0 ∧
      (ovs_nsh_pop (ovs_nsh_push gfp_ok skb t).2).2.csum =
        (if skb.csum = 0 then 4294967295 else skb.csum) ∧
      (ovs_nsh_pop (ovs_nsh_push gfp_ok skb t).2).2.csum % 4294967295 =
        skb.csum % 4294967295) := by
  refine ⟨fun h => ?_, fun h => ovs_nsh_pop_csum skb hwf h hcomp, fun h hL4 hL8 ht hc => ?_⟩
  · obtain ⟨p1, p2⟩ := ovs_nsh_push_csum gfp_ok skb t hwf h
    rw [if_pos hcomp] at p2
    exact ⟨by rw [p1, hcomp], p2⟩
  · obtain ⟨p1, p2⟩ := ovs_nsh_push_csum gfp_ok skb t hwf h
    rw [if_pos hcomp] at p2
    obtain ⟨hwf', hF, hpop⟩ := ovs_nsh_push_pop_hdr gfp_ok skb t hwf h hL4 hL8 ht
    obtain ⟨_, q2⟩ := ovs_nsh_pop_csum _ hwf' hpop (by rw [p1, hcomp])
    have key : (ovs_nsh_pop (ovs_nsh_push gfp_ok skb t).2).2.csum =
        (if skb.csum = 0 then 4294967295 else skb.csum) := by
      rw [q2, hF, p2]
      exact csum_add_sub _ _ _ hc
    refine ⟨hpop, key, ?_⟩
    rw [key]
    split_ifs with h0
    · rw [h0]
    · rfl

/-- Witness for `ovs_nsh_incremental_csum`: the checksum-complete encapsulated
IPv4 packet with checksum 0x1234 and the base header as template. Both calls
succeed on it, the push gives 5959, the pop 4129, and the pop after the push
gives 0x1234 back. -/
theorem ovs_nsh_incremental_csum_witness :
    (ovs_nsh_push true nsh_ipv4_complete_skb nsh_base_hdr).1 = 0 ∧
    (ovs_nsh_pop nsh_ipv4_complete_skb).1 = 0 ∧
    (ovs_nsh_push true nsh_ipv4_complete_skb nsh_base_hdr).2.csum = 5959 ∧
    (ovs_nsh_pop nsh_ipv4_complete_skb).2.csum = 4129 ∧
    (ovs_nsh_pop (ovs_nsh_push true nsh_ipv4_complete_skb nsh_base_hdr).2).1 = 0 ∧
    (ovs_nsh_pop (ovs_nsh_push true nsh_ipv4_complete_skb nsh_base_hdr).2).2.csum =
      nsh_ipv4_complete_skb.csum :=
  have h := ovs_nsh_incremental_csum true nsh_ipv4_complete_skb nsh_base_hdr
    (by decide) (by decide)
  have hp : (ovs_nsh_push true nsh_ipv4_complete_skb nsh_base_hdr).1 = 0 := by decide
  have hq : (ovs_nsh_pop nsh_ipv4_complete_skb).1 = 0 := by decide
  have h3 := h.2.2 hp (by decide) (by decide) (by decide) (by decide)
  ⟨hp, hq, (h.1 hp).2.trans (by decide), (h.2.1 hq).2.trans (by decide), h3.1,
    h3.2.1.trans (by decide)⟩

/-- C17 (failure atomicity of the codec). When `ovs_nsh_push` returns an error
the buffer is the buffer it was given, in every field. When `ovs_nsh_pop`
returns an error the packet bytes, the front, the declared protocol,
`mac_header`, `network_header`, `mac_len` and the checksum fields are those
of the buffer before the call. -/
theorem ovs_nsh_failure_atomicity (gfp_ok : Bool) (skb : sk_buff) (t : List Nat) :
    ((ovs_nsh_push gfp_ok skb t).1 ≠ 0 → (ovs_nsh_push gfp_ok skb t).2 = skb) ∧
    (skb.data ≤ skb.head.length → (ovs_nsh_pop skb).1 ≠ 0 →
      skb_bytes (ovs_nsh_pop skb).2 = skb_bytes skb ∧
      (ovs_nsh_pop skb).2.data = skb.data ∧
      (ovs_nsh_pop skb).2.protocol = skb.protocol ∧
      (ovs_nsh_pop skb).2.mac_header = skb.mac_header ∧
      (ovs_nsh_pop skb).2.network_header = skb.network_header ∧
      (ovs_nsh_pop skb).2.mac_len = skb.mac_len ∧
      (ovs_nsh_pop skb).2.ip_summed = skb.ip_summed ∧
      (ovs_nsh_pop skb).2.csum = skb.csum ∧
      (ovs_nsh_pop skb).2.csum_start = skb.csum_start) :=
  ⟨ovs_nsh_push_fail gfp_ok skb t, ovs_nsh_pop_fail skb⟩

/-- C17 at a packet whose header, with the unknown code 9, lies half in the
paged part: the push fails for lack of memory and the pop for the unknown
code, and both leave the packet as it was. -/
theorem ovs_nsh_failure_atomicity_witness :
    (ovs_nsh_push false
      { skb_frame 0 [0x0f, 0x02, 0x02, 0x09] (htons ETH_P_NSH) 0 with
        frags := [0, 0, 1, 255, 7], ip_summed := CHECKSUM_COMPLETE, csum := 0x1234 }
      nsh_base_hdr).2 =
      { skb_frame 0 [0x0f, 0x02, 0x02, 0x09] (htons ETH_P_NSH) 0 with
        frags := [0, 0, 1, 255, 7], ip_summed := CHECKSUM_COMPLETE, csum := 0x1234 } ∧
    (ovs_nsh_pop
      { skb_frame 0 [0x0f, 0x02, 0x02, 0x09] (htons ETH_P_NSH) 0 with
        frags := [0, 0, 1, 255, 7], ip_summed := CHECKSUM_COMPLETE, csum := 0x1234 }).1 =
      -EAFNOSUPPORT ∧
    skb_bytes (ovs_nsh_pop
      { skb_frame 0 [0x0f, 0x02, 0x02, 0x09] (htons ETH_P_NSH) 0 with
        frags := [0, 0, 1, 255, 7], ip_summed := CHECKSUM_COMPLETE, csum := 0x1234 }).2 =
      [0x0f, 0x02, 0x02, 0x09, 0, 0, 1, 255, 7] ∧
    (ovs_nsh_pop
      { skb_frame 0 [0x0f, 0x02, 0x02, 0x09] (htons ETH_P_NSH) 0 with
        frags := [0, 0, 1, 255, 7], ip_summed := CHECKSUM_COMPLETE, csum := 0x1234 }).2.csum =
      0x1234 :=
  have h := ovs_nsh_failure_atomicity false
    { skb_frame 0 [0x0f, 0x02, 0x02, 0x09] (htons ETH_P_NSH) 0 with
      frags := [0, 0, 1, 255, 7], ip_summed := CHECKSUM_COMPLETE, csum := 0x1234 } nsh_base_hdr
  have hp := h.2 (by decide) (by decide)
  ⟨h.1 (by decide), by decide, hp.1.trans (by decide), hp.2.2.2.2.2.2.2.1⟩

/-- C18 (early-failure frame). When `nsh_gso_segment` fails before it invokes
the delegate, because the header is truncated or its next-protocol code is
unknown, the packet bytes, the front, the declared protocol, `mac_header` and
`mac_len` are those of the buffer before the call, `network_header` holds the
offset of the front, and the transport marker, the checksum fields and the
encapsulation flag are unchanged too. For a buffer without paged bytes the
buffer after the call is the buffer before it with `network_header` set to
the front and nothing else changed. -/
theorem nsh_gso_segment_early_exit_frame (seg : sk_buff → Nat → segs_ptr × sk_buff)
    (skb : sk_buff) (features : Nat) (hwf : skb.data ≤ skb.head.length)
    (hd : skb.data < 65536)
    (hfail : skb_len skb < NSH_BASE_HDR_LEN ∨ skb_len skb < nsh_hdr_len (skb_bytes skb) ∨
      tun_p_to_eth_p (nsh_np (skb_bytes skb)) = 0) :
    skb_bytes (nsh_gso_segment seg skb features).2 = skb_bytes skb ∧
    (nsh_gso_segment seg skb features).2.data = skb.data ∧
    (nsh_gso_segment seg skb features).2.protocol = skb.protocol ∧
    (nsh_gso_segment seg skb features).2.mac_header = skb.mac_header ∧
    (nsh_gso_segment seg skb features).2.mac_len = skb.mac_len ∧
    (nsh_gso_segment seg skb features).2.network_header = skb.data ∧
    (nsh_gso_segment seg skb features).2.transport_header = skb.transport_header ∧
    (nsh_gso_segment seg skb features).2.ip_summed = skb.ip_summed ∧
    (nsh_gso_segment seg skb features).2.csum = skb.csum ∧
    (nsh_gso_segment seg skb features).2.csum_start = skb.csum_start ∧
    (nsh_gso_segment seg skb features).2.encapsulation = skb.encapsulation ∧
    (skb.frags = [] →
      (nsh_gso_segment seg skb features).2 = { skb with network_header := skb.data }) :=
  (nsh_gso_segment_early_frame seg skb features hwf hd hfail).2

/-- C18 at a packet behind 14 bytes of link framing whose NSH header carries
the unknown code 9 and whose network marker is stale: the marker moves to the
front, offset 14, and nothing else changes. -/
theorem nsh_gso_segment_early_exit_frame_witness :
    (nsh_gso_segment gso_null
      { skb_frame 14 [0x0f, 0x02, 0x02, 0x09, 0, 0, 1, 255, 7] (htons ETH_P_NSH) 0 with
        mac_header := 0, network_header := 6, mac_len := 14 } NETIF_F_SG).2 =
      { skb_frame 14 [0x0f, 0x02, 0x02, 0x09, 0, 0, 1, 255, 7] (htons ETH_P_NSH) 0 with
        mac_header := 0, network_header := 14, mac_len := 14 } :=
  (nsh_gso_segment_early_exit_frame gso_null
    { skb_frame 14 [0x0f, 0x02, 0x02, 0x09, 0, 0, 1, 255, 7] (htons ETH_P_NSH) 0 with
      mac_header := 0, network_header := 6, mac_len := 14 } NETIF_F_SG
    (by decide) (by decide) (by decide)).2.2.2.2.2.2.2.2.2.2.2 rfl

end Nsh
